import Mathlib

/-!
# Blink: the Application life cycle of `main.cpp` and `engine.cpp`

A shallow embedding of the two drafts of the `Application` class:

* `Blink.Headless` is `src/main.cpp` (every collaborator is a stub, the loop is
  stopped by the demo exit key of `IsKeyPressed`);
* `Blink.Windowed` is `src/engine.cpp` (the raylib-backed draft, the loop is
  stopped by `WindowShouldClose`).

Member functions whose text is the same in both files (`IsRunning`,
`RequestExit`, `InitializeInput`, `InitializeTime`, `UpdateTime`, `Update`)
are embedded once, directly in `Blink`.

Conventions.

* The C++ object, the function-local statics and the cursors of the two outside
  collaborators (clock, window system) form one record, `World`.  Stateful
  member functions are functions `World → World` (or `World → α × World`).
* `World.trace` is the chronological record of what the program does that is
  visible from outside: every line sent to `std::cout` and every call of a
  phase, sub-step or collaborator.  `RequestExit` and `IsRunning` print
  nothing and call nothing, so they leave the trace alone.
* The C++ `int` counters are 32-bit two's-complement integers: `wrapInt` brings
  the result of `++` back into `[-2^31, 2^31)`, and `%` and `/` on them truncate
  towards zero (`Int.tmod`, `Int.tdiv`).
* Time stamps are integers (clock ticks); the conversion of a tick difference
  to `float` seconds is not modelled, deltas are exact tick differences.
* The `while` loop of `Run` takes fuel: `none` means that the fuel ran out
  before the running flag went down.
* The ball position of `engine.cpp` is a `float` pair local to `Run` which is
  only moved and drawn; the calls that touch it are recorded, its value is not.
* To speak of the states inside `Run`, `exec` follows the program step by step:
  the calls of the other public operations and, for `Run`, its entry, every
  pass through the loop body and its return. `IsRunning()` is evaluated by the
  program exactly between such steps (it is the loop condition).
-/

namespace Blink

/-! ## Data model -/

/-- Lines written to `std::cout`. -/
inductive Line where
  /-- Prints `=== Blink game engine starting ===` -/
  | engineStarting
  /-- Prints `Initialize Application...` -/
  | initApplication
  /-- Prints `Creating window...` followed by width, height and title -/
  | creatingWindow (width height : Nat)
  /-- Prints `Failed to create window!` -/
  | failedWindow
  /-- Prints `Initializing input system...` -/
  | initInput
  /-- Prints `Failed to initialize input!` -/
  | failedInput
  /-- Prints `Initializing time management...` -/
  | initTime
  /-- Prints `Failed to initialize time management!` -/
  | failedTime
  /-- Prints `Application initialized successfully!` -/
  | initOk
  /-- Prints `Failed to initialize application!` -/
  | failedApplication
  /-- Prints `Starting main game loop...` -/
  | startingLoop
  /-- Prints `Update tick: <seconds>s (dt=<dt>)`, the heartbeat -/
  | updateTick (seconds : Int) (dt : Int)
  /-- Prints `Exiting main game loop...` -/
  | exitingLoop
  /-- Prints `Shutting down Application` -/
  | shuttingDown
  /-- Prints `Application shutdown complete!` -/
  | shutdownComplete
  /-- Prints `=== Blink Game Engine Finished ===` -/
  | engineFinished
  deriving DecidableEq, Repr

/-- One entry of the trace: a printed line or a call. -/
inductive Event where
  | print (l : Line)
  | createWindow (width height : Nat)
  | initWindow (width height : Nat)
  | setTargetFPS (fps : Nat)
  | initInput
  | initTime
  | pollEvents
  | windowShouldClose (answer : Bool)
  | updateInputState
  | isKeyPressed (keyCode : Nat) (answer : Bool)
  | updateTime (dt : Int)
  | update (dt : Int)
  | render
  | beginDrawing
  | endDrawing
  | presentFrame
  | swapBuffers
  | sleepFor (ms : Nat)
  | closeWindow
  deriving DecidableEq, Repr

/-- The `Application` object (`isRunning` and the three pointers, which stay
null), the function-local statics (`frameCount` of `IsKeyPressed`, `lastTime` of
`UpdateTime` with `none` for "not yet initialised", `updateCount` of `Update`),
the number of clock reads and of `WindowShouldClose` queries made so far, and
the trace. -/
structure World where
  isRunning : Bool
  window : Option Nat
  inputManager : Option Nat
  timeManager : Option Nat
  frameCount : Int
  lastTime : Option Int
  updateCount : Int
  clockReads : Nat
  closeQueries : Nat
  trace : List Event
  deriving DecidableEq, Repr

/-- The outside collaborators: `clock n` is the time stamp returned by the
`n`-th call of `high_resolution_clock::now()` (counting from 0) and
`windowShouldClose n` the answer of the `n`-th call of raylib's
`WindowShouldClose()`. -/
structure Env where
  clock : Nat → Int
  windowShouldClose : Nat → Bool

/-- What the three sub-steps of `Initialize` report. -/
structure SubSteps where
  createWindow : Bool
  initInput : Bool
  initTime : Bool
  deriving DecidableEq, Repr

/-- The sub-steps as they are written in both files: each one ends in
`return true`. -/
def stubSteps : SubSteps := ⟨true, true, true⟩

/-- The three sub-steps reported success. -/
def SubSteps.allOk (s : SubSteps) : Bool :=
  s.createWindow && s.initInput && s.initTime

/-- State right after `GetInstance()` built the object through the private
constructor `Application() : isRunning(false), window(nullptr), ...`, with
untouched statics. -/
def fresh : World :=
  { isRunning := false, window := none, inputManager := none, timeManager := none,
    frameCount := 0, lastTime := none, updateCount := 0, clockReads := 0,
    closeQueries := 0, trace := [] }

/-- Append one event to the trace. -/
def record (e : Event) (w : World) : World :=
  { w with trace := w.trace ++ [e] }

/-- Send one line to `std::cout`. -/
def say (l : Line) (w : World) : World :=
  record (.print l) w

/-- The value an `int` holds after an arithmetic result `x`: `x` brought back
into `[-2^31, 2^31)` modulo `2^32`. -/
def wrapInt (x : Int) : Int :=
  (x + 2147483648) % 4294967296 - 2147483648

/-! ## Member functions shared by both files -/

/-- Embeds `bool IsRunning() const { return isRunning; }` -/
def IsRunning (w : World) : Bool :=
  w.isRunning

/-- Embeds `void RequestExit() { isRunning = false; }` -/
def RequestExit (w : World) : World :=
  { w with isRunning := false }

/-- Embeds `bool InitializeInput()`: prints and reports (the stub reports `true`). -/
def InitializeInput (s : SubSteps) (w : World) : Bool × World :=
  (s.initInput, say .initInput (record .initInput w))

/-- Embeds `bool InitializeTime()`: prints and reports (the stub reports `true`). -/
def InitializeTime (s : SubSteps) (w : World) : Bool × World :=
  (s.initTime, say .initTime (record .initTime w))

/-- One call of `std::chrono::high_resolution_clock::now()`. -/
def now (env : Env) (w : World) : Int × World :=
  (env.clock w.clockReads, { w with clockReads := w.clockReads + 1 })

/-- Embeds `float UpdateTime()`.  The static `lastTime` is initialised by a clock read
of its own the first time control passes through its declaration; then
`currentTime` is read, the difference is returned and `lastTime` replaced. -/
def UpdateTime (env : Env) (w : World) : Int × World :=
  let (lastTime, w1) : Int × World :=
    match w.lastTime with
    | some t => (t, w)
    | none =>
      let (t, w0) := now env w
      (t, { w0 with lastTime := some t })
  let (currentTime, w2) := now env w1
  let deltaTime := currentTime - lastTime
  (deltaTime, record (.updateTime deltaTime) { w2 with lastTime := some currentTime })

/-- Embeds `void Update(float deltaTime)`: bump the static counter and print the
heartbeat on every 60th call. -/
def Update (deltaTime : Int) (w : World) : World :=
  let w1 := record (.update deltaTime) w
  let w2 := { w1 with updateCount := wrapInt (w1.updateCount + 1) }
  if Int.tmod w2.updateCount 60 = 0 then
    say (.updateTick (Int.tdiv w2.updateCount 60) deltaTime) w2
  else
    w2

/-! ## `src/main.cpp` -/

namespace Headless

/-- Embeds `bool CreateWindow(int width, int height, const char* title)` -/
def CreateWindow (s : SubSteps) (width height : Nat) (w : World) : Bool × World :=
  (s.createWindow, say (.creatingWindow width height) (record (.createWindow width height) w))

/-- Embeds `bool Initialize()` -/
def Initialize (s : SubSteps) (w : World) : Bool × World :=
  let w0 := say .initApplication w
  let (okWindow, w1) := CreateWindow s 800 600 w0
  if !okWindow then
    (false, say .failedWindow w1)
  else
    let (okInput, w2) := InitializeInput s w1
    if !okInput then
      (false, say .failedInput w2)
    else
      let (okTime, w3) := InitializeTime s w2
      if !okTime then
        (false, say .failedTime w3)
      else
        (true, say .initOk { w3 with isRunning := true })

/-- Embeds `void PollEvents()`: an empty stub. -/
def PollEvents (w : World) : World :=
  record .pollEvents w

/-- Embeds `void UpdateInputState()`: an empty stub. -/
def UpdateInputState (w : World) : World :=
  record .updateInputState w

/-- Embeds `bool IsKeyPressed(int keyCode)`: `frameCount++; return frameCount > 300;` -/
def IsKeyPressed (keyCode : Nat) (w : World) : Bool × World :=
  let w1 := { w with frameCount := wrapInt (w.frameCount + 1) }
  let answer := decide (w1.frameCount > 300)
  (answer, record (.isKeyPressed keyCode answer) w1)

/-- Embeds `void ProcessInput()` -/
def ProcessInput (w : World) : World :=
  let w1 := PollEvents w
  let w2 := UpdateInputState w1
  let (pressed, w3) := IsKeyPressed 27 w2
  if pressed then RequestExit w3 else w3

/-- Embeds `void Render()`: an empty stub. -/
def Render (w : World) : World :=
  record .render w

/-- Embeds `void SwapBuffers()`: an empty stub. -/
def SwapBuffers (w : World) : World :=
  record .swapBuffers w

/-- Embeds `void PresentFrame() { SwapBuffers(); }` -/
def PresentFrame (w : World) : World :=
  SwapBuffers (record .presentFrame w)

/-- The body of the `while` loop of `Run`. -/
def loopBody (env : Env) (w : World) : World :=
  let w1 := ProcessInput w
  let (deltaTime, w2) := UpdateTime env w1
  let w3 := Update deltaTime w2
  let w4 := Render w3
  let w5 := PresentFrame w4
  record (.sleepFor 16) w5

/-- Embeds `while (IsRunning()) { ... }` with fuel. -/
def whileLoop (env : Env) : Nat → World → Option World
  | 0, _ => none
  | fuel + 1, w => if IsRunning w then whileLoop env fuel (loopBody env w) else some w

/-- Embeds `void Run()` -/
def Run (env : Env) (fuel : Nat) (w : World) : Option World :=
  (whileLoop env fuel (say .startingLoop w)).map (say .exitingLoop)

/-- Embeds `void Shutdown()`: the three teardown calls are commented out. -/
def Shutdown (w : World) : World :=
  let w1 := say .shuttingDown w
  say .shutdownComplete { w1 with isRunning := false }

/-- Embeds `int main()`: exit code and final state, `none` when the loop ran out of
fuel. -/
def main (s : SubSteps) (env : Env) (fuel : Nat) : Option (Int × World) :=
  let w0 := say .engineStarting fresh
  let (ok, w1) := Initialize s w0
  if !ok then
    some (-1, say .failedApplication w1)
  else
    match Run env fuel w1 with
    | none => none
    | some w2 => some (0, say .engineFinished (Shutdown w2))

end Headless

/-! ## `src/engine.cpp` -/

namespace Windowed

/-- Embeds `const int screenWidth = 800;` -/
def screenWidth : Nat := 800

/-- Embeds `const int screenHeight = 450;` -/
def screenHeight : Nat := 450

/-- Embeds `bool CreateWindow(int width, int height, const char* title)`: prints, calls
`InitWindow` and `SetTargetFPS(60)`. -/
def CreateWindow (s : SubSteps) (width height : Nat) (w : World) : Bool × World :=
  let w1 := say (.creatingWindow width height) (record (.createWindow width height) w)
  let w2 := record (.initWindow width height) w1
  (s.createWindow, record (.setTargetFPS 60) w2)

/-- Embeds `bool Initialize()` -/
def Initialize (s : SubSteps) (w : World) : Bool × World :=
  let w0 := say .initApplication w
  let (okWindow, w1) := CreateWindow s screenWidth screenHeight w0
  if !okWindow then
    (false, say .failedWindow w1)
  else
    let (okInput, w2) := InitializeInput s w1
    if !okInput then
      (false, say .failedInput w2)
    else
      let (okTime, w3) := InitializeTime s w2
      if !okTime then
        (false, say .failedTime w3)
      else
        (true, say .initOk { w3 with isRunning := true })

/-- One call of raylib's `WindowShouldClose()`. -/
def WindowShouldClose (env : Env) (w : World) : Bool × World :=
  let answer := env.windowShouldClose w.closeQueries
  (answer, record (.windowShouldClose answer) { w with closeQueries := w.closeQueries + 1 })

/-- Embeds `void PollEvents() { isRunning = !WindowShouldClose(); }` -/
def PollEvents (env : Env) (w : World) : World :=
  let w0 := record .pollEvents w
  let (close, w1) := WindowShouldClose env w0
  { w1 with isRunning := !close }

/-- Embeds `void UpdateInputState(Vector2* ballPosition)`: moves the ball by the arrow
keys. -/
def UpdateInputState (w : World) : World :=
  record .updateInputState w

/-- Embeds `void ProcessInput(Vector2* ballPosition)` -/
def ProcessInput (env : Env) (w : World) : World :=
  UpdateInputState (PollEvents env w)

/-- Embeds `void Render(Vector2* ballPosition)`: `BeginDrawing()`, the drawing calls,
`EndDrawing()` (which presents the frame). -/
def Render (w : World) : World :=
  record .endDrawing (record .beginDrawing (record .render w))

/-- The body of the `while` loop of `Run`. -/
def loopBody (env : Env) (w : World) : World :=
  let w1 := ProcessInput env w
  let (deltaTime, w2) := UpdateTime env w1
  let w3 := Update deltaTime w2
  Render w3

/-- Embeds `while (IsRunning()) { ... }` with fuel. -/
def whileLoop (env : Env) : Nat → World → Option World
  | 0, _ => none
  | fuel + 1, w => if IsRunning w then whileLoop env fuel (loopBody env w) else some w

/-- Embeds `void Run()` -/
def Run (env : Env) (fuel : Nat) (w : World) : Option World :=
  (whileLoop env fuel (say .startingLoop w)).map (say .exitingLoop)

/-- Embeds `void CloseWindow()` of raylib. -/
def CloseWindow (w : World) : World :=
  record .closeWindow w

/-- Embeds `void Shutdown()`: `CloseWindow(); isRunning = false;` -/
def Shutdown (w : World) : World :=
  let w1 := say .shuttingDown w
  let w2 := CloseWindow w1
  say .shutdownComplete { w2 with isRunning := false }

/-- Embeds `int main()`: exit code and final state, `none` when the loop ran out of
fuel. -/
def main (s : SubSteps) (env : Env) (fuel : Nat) : Option (Int × World) :=
  let w0 := say .engineStarting fresh
  let (ok, w1) := Initialize s w0
  if !ok then
    some (-1, say .failedApplication w1)
  else
    match Run env fuel w1 with
    | none => none
    | some w2 => some (0, say .engineFinished (Shutdown w2))

end Windowed

/-! ## Reading a trace -/

/-- The sub-steps of `Initialize`. -/
inductive Step where
  | window
  | input
  | time
  deriving DecidableEq, Repr

/-- The sub-step a trace entry is the call of, if any. -/
def subStepOf : Event → Option Step
  | .createWindow _ _ => some .window
  | .initInput => some .input
  | .initTime => some .time
  | _ => none

/-- The sub-steps of `Initialize` called along a trace, in call order. -/
def subStepCalls (t : List Event) : List Step :=
  t.filterMap subStepOf

/-- Number of `Update` calls in a trace. -/
def updateCalls (t : List Event) : Nat :=
  t.countP fun e => match e with
    | .update _ => true
    | _ => false

/-- Number of `PollEvents` calls in a trace: every pass through the loop body
starts with one. -/
def pollCalls (t : List Event) : Nat :=
  t.countP fun e => match e with
    | .pollEvents => true
    | _ => false

/-- Number of raylib `CloseWindow` calls in a trace. -/
def closeWindowCalls (t : List Event) : Nat :=
  t.countP fun e => match e with
    | .closeWindow => true
    | _ => false

/-- The answers of the stop signal along a trace, in order: those of
`IsKeyPressed` in `main.cpp`, those of `WindowShouldClose` in `engine.cpp`. -/
def stopAnswers (t : List Event) : List Bool :=
  t.filterMap fun e => match e with
    | .isKeyPressed _ a => some a
    | .windowShouldClose a => some a
    | _ => none

/-- The second counts of the heartbeat lines of a trace, in order. -/
def heartbeats (t : List Event) : List Int :=
  t.filterMap fun e => match e with
    | .print (.updateTick seconds _) => some seconds
    | _ => none

/-- Number of times a given line was printed. -/
def printed (l : Line) (t : List Event) : Nat :=
  t.count (.print l)

/-- Everything but the trace: the object fields, the statics and the cursors. -/
def World.fields (w : World) : World :=
  { w with trace := [] }

/-! ## Executions, step by step -/

/-- What happens to the application, one step at a time: a call of a public
operation other than `Run` or, for `Run`, its entry, one pass through the body
of its loop, and its return. -/
inductive Move where
  | init (s : SubSteps)
  | requestExit
  | shutdown
  | enterRun
  | pass
  | leaveRun
  deriving DecidableEq, Repr

/-- What a step was, as far as the running flag is concerned. -/
inductive Mark where
  /-- `Initialize` returned true -/
  | initSucceeded
  /-- `Initialize` returned false -/
  | initFailed
  /-- `Run` was entered: the loop has been started -/
  | runEntered
  /-- A pass through the loop body without exit request or close event -/
  | quietPass
  /-- `RequestExit` was called, by the caller or by `ProcessInput` on the exit key -/
  | requestExit
  /-- `PollEvents` saw `WindowShouldClose()` answer true -/
  | closeEvent
  /-- `Run` returned -/
  | runLeft
  /-- `Shutdown` was called -/
  | shutdown
  deriving DecidableEq, Repr

/-- The step was a `RequestExit`, a close event or a `Shutdown`. -/
def Mark.stops : Mark → Bool
  | .requestExit => true
  | .closeEvent => true
  | .shutdown => true
  | _ => false

/-- The running flag after a step marked `m`, when it was `b` before. -/
def flagStep (b : Bool) (m : Mark) : Bool :=
  match m with
  | .initSucceeded => true
  | .requestExit => false
  | .closeEvent => false
  | .shutdown => false
  | _ => b

/-- The running flag after steps marked `marks`, when it was `b` before. -/
def flagAfter (b : Bool) (marks : List Mark) : Bool :=
  marks.foldl flagStep b

/-- An `Initialize` has succeeded and neither `RequestExit`, nor a close event,
nor `Shutdown` has occurred since. -/
def RaisedAndNotStopped (marks : List Mark) : Prop :=
  ∃ pre post, marks = pre ++ Mark.initSucceeded :: post ∧ ∀ m ∈ post, m.stops = false

/-- The loop of `Run` has been started and neither `RequestExit`, nor a close
event, nor `Shutdown` has occurred since. -/
def StartedAndNotStopped (marks : List Mark) : Prop :=
  ∃ pre post, marks = pre ++ Mark.runEntered :: post ∧ ∀ m ∈ post, m.stops = false

namespace Headless

/-- The condition of the `if` in `ProcessInput`, evaluated for the pass that
starts in `w`: true when this pass calls `RequestExit`. -/
def exitRequested (w : World) : Bool :=
  (IsKeyPressed 27 (UpdateInputState (PollEvents w))).1

/-- One step of `main.cpp`. `inRun` tells whether control is inside `Run`; a
pass needs the loop condition `IsRunning()` true, the return needs it false. -/
def step (env : Env) : Move → World → Bool → Option (Mark × World × Bool)
  | .init s, w, false =>
    some (if (Initialize s w).1 then .initSucceeded else .initFailed, (Initialize s w).2, false)
  | .requestExit, w, false => some (.requestExit, RequestExit w, false)
  | .shutdown, w, false => some (.shutdown, Shutdown w, false)
  | .enterRun, w, false => some (.runEntered, say .startingLoop w, true)
  | .pass, w, true =>
    if IsRunning w then
      some (if exitRequested w then .requestExit else .quietPass, loopBody env w, true)
    else none
  | .leaveRun, w, true => if IsRunning w then none else some (.runLeft, say .exitingLoop w, false)
  | _, _, _ => none

/-- A sequence of steps of `main.cpp`: the marks of the steps, the state
reached and whether control is inside `Run`; `none` when some step cannot be
taken. -/
def exec (env : Env) : List Move → World → Bool → Option (List Mark × World × Bool)
  | [], w, inRun => some ([], w, inRun)
  | st :: rest, w, inRun =>
    match step env st w inRun with
    | none => none
    | some (m, w1, r1) =>
      match exec env rest w1 r1 with
      | none => none
      | some (ms, w2, r2) => some (m :: ms, w2, r2)

end Headless

namespace Windowed

/-- The answer `PollEvents` gets from `WindowShouldClose()` in the pass that
starts in `w`: true when this pass observes a close event. -/
def closeRequested (env : Env) (w : World) : Bool :=
  (WindowShouldClose env (record .pollEvents w)).1

/-- One step of `engine.cpp`. `inRun` tells whether control is inside `Run`; a
pass needs the loop condition `IsRunning()` true, the return needs it false. -/
def step (env : Env) : Move → World → Bool → Option (Mark × World × Bool)
  | .init s, w, false =>
    some (if (Initialize s w).1 then .initSucceeded else .initFailed, (Initialize s w).2, false)
  | .requestExit, w, false => some (.requestExit, RequestExit w, false)
  | .shutdown, w, false => some (.shutdown, Shutdown w, false)
  | .enterRun, w, false => some (.runEntered, say .startingLoop w, true)
  | .pass, w, true =>
    if IsRunning w then
      some (if closeRequested env w then .closeEvent else .quietPass, loopBody env w, true)
    else none
  | .leaveRun, w, true => if IsRunning w then none else some (.runLeft, say .exitingLoop w, false)
  | _, _, _ => none

/-- A sequence of steps of `engine.cpp`: the marks of the steps, the state
reached and whether control is inside `Run`; `none` when some step cannot be
taken. -/
def exec (env : Env) : List Move → World → Bool → Option (List Mark × World × Bool)
  | [], w, inRun => some ([], w, inRun)
  | st :: rest, w, inRun =>
    match step env st w inRun with
    | none => none
    | some (m, w1, r1) =>
      match exec env rest w1 r1 with
      | none => none
      | some (ms, w2, r2) => some (m :: ms, w2, r2)

end Windowed

/-! ## Statements and test data -/

/-- The contract of an `Initialize` function at sub-step outcomes `s` and
starting state `w`: success exactly when all three sub-steps succeed, the
sub-steps called are window, input, time up to and including the first failing
one, and the running flag is raised on success and untouched on failure. -/
def InitializeContract (Init : SubSteps → World → Bool × World) (s : SubSteps) (w : World) :
    Prop :=
  ((Init s w).1 = true ↔ (s.createWindow = true ∧ s.initInput = true ∧ s.initTime = true)) ∧
  subStepCalls (Init s w).2.trace = subStepCalls w.trace ++
    (if s.createWindow = false then [Step.window]
     else if s.initInput = false then [Step.window, Step.input]
     else [Step.window, Step.input, Step.time]) ∧
  ((Init s w).1 = true → (Init s w).2.isRunning = true) ∧
  ((Init s w).1 = false → (Init s w).2.isRunning = w.isRunning)

/-- State after `i` successive calls of `UpdateTime`. -/
def timeCalls (env : Env) : Nat → World → World
  | 0, w => w
  | i + 1, w => (UpdateTime env (timeCalls env i w)).2

/-- A clock that advances by one tick per read, and a window that is never
closed. -/
def tickEnv : Env :=
  { clock := fun n => (n : Int), windowShouldClose := fun _ => false }

/-- A clock that advances by one tick per read, and a window whose close
button is reported from the third query on. -/
def closingEnv : Env :=
  { clock := fun n => (n : Int), windowShouldClose := fun n => decide (2 ≤ n) }

/-- The heartbeat line `Update` prints when its counter reaches `count`, if
any. -/
def heartbeatOf (count : Int) (dt : Int) : List Event :=
  if Int.tmod count 60 = 0 then [.print (.updateTick (Int.tdiv count 60) dt)] else []

namespace Headless

/-- The trace of one pass through the loop body of `main.cpp`: poll, input
sampling, the exit-key query, one time measurement, the update with the
measured value, possibly its heartbeat, render, present, sleep. -/
def IsIteration (b : List Event) : Prop :=
  ∃ (pressed : Bool) (dt : Int) (beat : List Event),
    (beat = [] ∨ ∃ seconds, beat = [.print (.updateTick seconds dt)]) ∧
    b = [.pollEvents, .updateInputState, .isKeyPressed 27 pressed, .updateTime dt, .update dt]
        ++ beat ++ [.render, .presentFrame, .swapBuffers, .sleepFor 16]

end Headless

namespace Windowed

/-- The trace of one pass through the loop body of `engine.cpp`: poll with its
close query, input sampling, one time measurement, the update with the
measured value, possibly its heartbeat, render with begin and end of drawing
(the end presents the frame). -/
def IsIteration (b : List Event) : Prop :=
  ∃ (close : Bool) (dt : Int) (beat : List Event),
    (beat = [] ∨ ∃ seconds, beat = [.print (.updateTick seconds dt)]) ∧
    b = [.pollEvents, .windowShouldClose close, .updateInputState, .updateTime dt, .update dt]
        ++ beat ++ [.render, .beginDrawing, .endDrawing]

end Windowed

/-- The application after a successful `Initialize` of `main.cpp` on the fresh
object. -/
def Headless.ready : World :=
  (Headless.Initialize stubSteps fresh).2

/-- The application after a successful `Initialize` of `engine.cpp` on the
fresh object. -/
def Windowed.ready : World :=
  (Windowed.Initialize stubSteps fresh).2

/-- The trace a `Run` adds: the loop banner, a sequence of complete passes
through the loop body, the exit banner. -/
def RunTrace (isIteration : List Event → Prop) (before after : List Event) : Prop :=
  ∃ blocks : List (List Event),
    (∀ b ∈ blocks, isIteration b) ∧
    after = before ++ [.print .startingLoop] ++ blocks.flatten ++ [.print .exitingLoop]

/-- State after the successive calls `Update(dt)` for `dt` running through
`dts`. -/
def updates : List Int → World → World
  | [], w => w
  | dt :: dts, w => updates dts (Update dt w)

/-- A `main` function returns 0 with any fuel above `minFuel`, and its trace
shows `Run` entered once and left once, then `Shutdown` entered once and
completed once, in that order. -/
def MainSucceeds (mainFn : Nat → Option (Int × World)) (minFuel : Nat) : Prop :=
  ∃ w', (∀ fuel, minFuel < fuel → mainFn fuel = some (0, w')) ∧
    printed .startingLoop w'.trace = 1 ∧
    printed .exitingLoop w'.trace = 1 ∧
    printed .shuttingDown w'.trace = 1 ∧
    printed .shutdownComplete w'.trace = 1 ∧
    ∃ a b c, w'.trace
      = a ++ .print .startingLoop :: b ++ .print .exitingLoop :: .print .shuttingDown :: c

/-- A `main` function returns -1 whatever the fuel, and its trace shows neither
`Run` nor `Shutdown`, no pass through the loop, no `Update` call, no heartbeat
line and no window release. -/
def MainFails (mainFn : Nat → Option (Int × World)) : Prop :=
  ∃ w', (∀ fuel, mainFn fuel = some (-1, w')) ∧
    printed .startingLoop w'.trace = 0 ∧
    printed .shuttingDown w'.trace = 0 ∧
    pollCalls w'.trace = 0 ∧
    updateCalls w'.trace = 0 ∧
    heartbeats w'.trace = [] ∧
    closeWindowCalls w'.trace = 0

/-- The line is not a heartbeat. -/
def Line.plain : Line → Bool
  | .updateTick _ _ => false
  | _ => true

/-- The state `main` of `main.cpp` hands to `Run` when the stubs succeed. -/
def Headless.started : World :=
  (Headless.Initialize stubSteps (say .engineStarting fresh)).2

/-- The state `main` of `engine.cpp` hands to `Run` when the stubs succeed. -/
def Windowed.started : World :=
  (Windowed.Initialize stubSteps (say .engineStarting fresh)).2

/-- The second counts `1, 2, ..., n / 60`. -/
def heartbeatNumbers (n : Nat) : List Int :=
  (List.range (n / 60)).map fun (k : Nat) => (k : Int) + 1

/-! ## Basic facts -/

@[simp] theorem record_trace (e : Event) (w : World) : (record e w).trace = w.trace ++ [e] := rfl

@[simp] theorem record_isRunning (e : Event) (w : World) :
    (record e w).isRunning = w.isRunning := rfl

@[simp] theorem record_frameCount (e : Event) (w : World) :
    (record e w).frameCount = w.frameCount := rfl

@[simp] theorem record_updateCount (e : Event) (w : World) :
    (record e w).updateCount = w.updateCount := rfl

@[simp] theorem record_lastTime (e : Event) (w : World) :
    (record e w).lastTime = w.lastTime := rfl

@[simp] theorem record_clockReads (e : Event) (w : World) :
    (record e w).clockReads = w.clockReads := rfl

@[simp] theorem record_closeQueries (e : Event) (w : World) :
    (record e w).closeQueries = w.closeQueries := rfl

@[simp] theorem record_fields (e : Event) (w : World) : (record e w).fields = w.fields := rfl

@[simp] theorem say_eq (l : Line) (w : World) : say l w = record (.print l) w := rfl

/-! ## C1: `Initialize` -/

/-- C1. For every combination of sub-step outcomes and every starting state,
`Initialize` (in `main.cpp` and in `engine.cpp`) returns true exactly when
`CreateWindow`, `InitializeInput` and `InitializeTime` all succeed; the
sub-steps it calls are window, input, time in that order up to and including
the first one that fails; the running flag is true after a successful call and
keeps its previous value after a failing one. -/
theorem C1_Initialize_contract (s : SubSteps) (w : World) :
    InitializeContract Headless.Initialize s w ∧ InitializeContract Windowed.Initialize s w := by
  obtain ⟨cw, ii, it⟩ := s
  cases cw <;> cases ii <;> cases it <;>
    simp [InitializeContract, Headless.Initialize, Windowed.Initialize, Headless.CreateWindow,
      Windowed.CreateWindow, InitializeInput, InitializeTime, subStepCalls, subStepOf,
      List.filterMap_append]

/-! ## C4: `Shutdown` -/

theorem Headless.Shutdown_fields_main (w : World) :
    (Headless.Shutdown w).fields = { w with isRunning := false, trace := [] } := rfl

theorem Windowed.Shutdown_fields_engine (w : World) :
    (Windowed.Shutdown w).fields = { w with isRunning := false, trace := [] } := rfl

/-- C4, as stated, fails on `engine.cpp`: two calls of `Shutdown` on the
successfully initialised application call `CloseWindow` twice, not at most
once. -/
theorem C4_Shutdown_releases_twice :
    closeWindowCalls Windowed.ready.trace = 0 ∧
    closeWindowCalls (Windowed.Shutdown (Windowed.Shutdown Windowed.ready)).trace = 2 ∧
    ¬ closeWindowCalls (Windowed.Shutdown (Windowed.Shutdown Windowed.ready)).trace ≤
      closeWindowCalls Windowed.ready.trace + 1 := by
  decide

/-- C4, amended. For every state, in both files, calling `Shutdown` twice gives
the same fields as calling it once: the running flag is false and every other
field is the one before the calls. In `main.cpp` no window release is called;
in `engine.cpp` every call of `Shutdown` calls `CloseWindow` exactly once, so
two calls release twice. -/
theorem C4_Shutdown_idempotent_on_fields (w : World) :
    ((Headless.Shutdown (Headless.Shutdown w)).fields = (Headless.Shutdown w).fields ∧
      (Headless.Shutdown w).isRunning = false ∧
      (Headless.Shutdown w).fields = { w with isRunning := false }.fields ∧
      closeWindowCalls (Headless.Shutdown (Headless.Shutdown w)).trace
        = closeWindowCalls w.trace) ∧
    ((Windowed.Shutdown (Windowed.Shutdown w)).fields = (Windowed.Shutdown w).fields ∧
      (Windowed.Shutdown w).isRunning = false ∧
      (Windowed.Shutdown w).fields = { w with isRunning := false }.fields ∧
      closeWindowCalls (Windowed.Shutdown w).trace = closeWindowCalls w.trace + 1 ∧
      closeWindowCalls (Windowed.Shutdown (Windowed.Shutdown w)).trace
        = closeWindowCalls w.trace + 2) := by
  refine ⟨⟨rfl, rfl, rfl, ?_⟩, ⟨rfl, rfl, rfl, ?_, ?_⟩⟩ <;>
    simp [Headless.Shutdown, Windowed.Shutdown, Windowed.CloseWindow, closeWindowCalls,
      List.countP_append]

/-! ## C7, C8: `UpdateTime` -/

theorem UpdateTime_of_some (env : Env) (w : World) (t : Int) (h : w.lastTime = some t) :
    UpdateTime env w =
      (env.clock w.clockReads - t,
        record (.updateTime (env.clock w.clockReads - t))
          { w with clockReads := w.clockReads + 1, lastTime := some (env.clock w.clockReads) }) := by
  simp [UpdateTime, now, h]

theorem UpdateTime_of_none (env : Env) (w : World) (h : w.lastTime = none) :
    UpdateTime env w =
      (env.clock (w.clockReads + 1) - env.clock w.clockReads,
        record (.updateTime (env.clock (w.clockReads + 1) - env.clock w.clockReads))
          { w with clockReads := w.clockReads + 2,
                   lastTime := some (env.clock (w.clockReads + 1)) }) := by
  simp [UpdateTime, now, h]

theorem UpdateTime_stored (env : Env) (w : World) :
    1 ≤ (UpdateTime env w).2.clockReads ∧
    (UpdateTime env w).2.lastTime = some (env.clock ((UpdateTime env w).2.clockReads - 1)) := by
  cases h : w.lastTime with
  | none => simp [UpdateTime_of_none env w h]
  | some t => simp [UpdateTime_of_some env w t h]

/-- C7. Let the clock be non-decreasing and take any state `w0`. For every call
of `UpdateTime` after the first one (the call made after `i ≥ 1` earlier
calls): the time stamp found in `lastTime` is the one the previous call stored,
the returned delta is the time stamp read in this call minus that stored one,
this call reads the clock once and stores what it read, and the delta is not
negative. -/
theorem C7_UpdateTime_delta (env : Env) (w0 : World) (i : Nat)
    (hmono : Monotone env.clock) (hi : 1 ≤ i) :
    ∃ stored : Int,
      (UpdateTime env (timeCalls env (i - 1) w0)).2.lastTime = some stored ∧
      (timeCalls env i w0).lastTime = some stored ∧
      (UpdateTime env (timeCalls env i w0)).1
        = env.clock (timeCalls env i w0).clockReads - stored ∧
      (UpdateTime env (timeCalls env i w0)).2.clockReads
        = (timeCalls env i w0).clockReads + 1 ∧
      (UpdateTime env (timeCalls env i w0)).2.lastTime
        = some (env.clock (timeCalls env i w0).clockReads) ∧
      0 ≤ (UpdateTime env (timeCalls env i w0)).1 := by
  obtain ⟨j, rfl⟩ : ∃ j, i = j + 1 := ⟨i - 1, by omega⟩
  have hs : (timeCalls env (j + 1) w0).lastTime
      = some (env.clock ((timeCalls env (j + 1) w0).clockReads - 1)) :=
    (UpdateTime_stored env (timeCalls env j w0)).2
  refine ⟨env.clock ((timeCalls env (j + 1) w0).clockReads - 1), hs, hs, ?_, ?_, ?_, ?_⟩
  all_goals rw [UpdateTime_of_some env (timeCalls env (j + 1) w0) _ hs]
  all_goals try simp
  exact hmono (Nat.sub_le _ _)

theorem tickEnv_monotone : Monotone tickEnv.clock :=
  fun _ _ h => Int.ofNat_le.mpr h

/-- C7 at the one-tick clock: the second call on a fresh application. -/
theorem C7_UpdateTime_delta_witness :
    Monotone tickEnv.clock ∧ 1 ≤ 1 ∧
    ∃ stored : Int,
      (UpdateTime tickEnv (timeCalls tickEnv (1 - 1) fresh)).2.lastTime = some stored ∧
      (timeCalls tickEnv 1 fresh).lastTime = some stored ∧
      (UpdateTime tickEnv (timeCalls tickEnv 1 fresh)).1
        = tickEnv.clock (timeCalls tickEnv 1 fresh).clockReads - stored ∧
      (UpdateTime tickEnv (timeCalls tickEnv 1 fresh)).2.clockReads
        = (timeCalls tickEnv 1 fresh).clockReads + 1 ∧
      (UpdateTime tickEnv (timeCalls tickEnv 1 fresh)).2.lastTime
        = some (tickEnv.clock (timeCalls tickEnv 1 fresh).clockReads) ∧
      0 ≤ (UpdateTime tickEnv (timeCalls tickEnv 1 fresh)).1 :=
  ⟨tickEnv_monotone, le_refl 1, C7_UpdateTime_delta tickEnv fresh 1 tickEnv_monotone (le_refl 1)⟩

/-- C8, as stated, fails: with a clock that advances one tick per read, the
first call of `UpdateTime` on a fresh application returns 1, not 0. -/
theorem C8_first_delta_not_zero :
    (UpdateTime tickEnv fresh).1 = 1 ∧ (UpdateTime tickEnv fresh).1 ≠ 0 := by
  decide

/-- C8, amended. The first call of `UpdateTime` (static `lastTime` not yet
initialised) reads the clock twice, returns the second reading minus the first
and stores the second; the delta is therefore defined, not negative when the
clock is non-decreasing, and 0 exactly when the two readings coincide. -/
theorem C8_first_delta_two_reads (env : Env) (w : World) (hfirst : w.lastTime = none) :
    (UpdateTime env w).1 = env.clock (w.clockReads + 1) - env.clock w.clockReads ∧
    (UpdateTime env w).2.clockReads = w.clockReads + 2 ∧
    (UpdateTime env w).2.lastTime = some (env.clock (w.clockReads + 1)) ∧
    (Monotone env.clock → 0 ≤ (UpdateTime env w).1) ∧
    ((UpdateTime env w).1 = 0 ↔ env.clock (w.clockReads + 1) = env.clock w.clockReads) := by
  rw [UpdateTime_of_none env w hfirst]
  refine ⟨rfl, rfl, rfl, ?_, ?_⟩
  · intro hmono
    have : env.clock w.clockReads ≤ env.clock (w.clockReads + 1) := hmono (Nat.le_succ _)
    simpa using this
  · simp [sub_eq_zero]

/-- C8 amended, on a fresh application with the one-tick clock. -/
theorem C8_first_delta_two_reads_witness :
    fresh.lastTime = none ∧
    (UpdateTime tickEnv fresh).1 = tickEnv.clock (fresh.clockReads + 1) - tickEnv.clock fresh.clockReads :=
  ⟨rfl, (C8_first_delta_two_reads tickEnv fresh rfl).1⟩

/-! ## The loop of `main.cpp` -/

theorem wrapInt_succ (a : Int) : wrapInt (wrapInt a + 1) = wrapInt (a + 1) := by
  unfold wrapInt
  omega

theorem wrapInt_of_range (a : Int) (h0 : -2147483648 ≤ a) (h1 : a ≤ 2147483647) :
    wrapInt a = a := by
  unfold wrapInt
  omega

theorem UpdateTime_isRunning (env : Env) (w : World) :
    (UpdateTime env w).2.isRunning = w.isRunning := by
  cases h : w.lastTime <;> simp [UpdateTime, now, h]

theorem UpdateTime_frameCount (env : Env) (w : World) :
    (UpdateTime env w).2.frameCount = w.frameCount := by
  cases h : w.lastTime <;> simp [UpdateTime, now, h]

theorem UpdateTime_updateCount (env : Env) (w : World) :
    (UpdateTime env w).2.updateCount = w.updateCount := by
  cases h : w.lastTime <;> simp [UpdateTime, now, h]

theorem UpdateTime_closeQueries (env : Env) (w : World) :
    (UpdateTime env w).2.closeQueries = w.closeQueries := by
  cases h : w.lastTime <;> simp [UpdateTime, now, h]

theorem UpdateTime_trace (env : Env) (w : World) :
    (UpdateTime env w).2.trace = w.trace ++ [.updateTime (UpdateTime env w).1] := by
  cases h : w.lastTime <;> simp [UpdateTime, now, h]

theorem UpdateTime_congr (env : Env) (w v : World) (h1 : v.lastTime = w.lastTime)
    (h2 : v.clockReads = w.clockReads) : (UpdateTime env v).1 = (UpdateTime env w).1 := by
  cases h : w.lastTime <;> simp [UpdateTime, now, h, h1, h2]

theorem Update_isRunning (dt : Int) (w : World) : (Update dt w).isRunning = w.isRunning := by
  unfold Update
  by_cases h : Int.tmod (wrapInt (w.updateCount + 1)) 60 = 0 <;> simp [h]

theorem Update_frameCount (dt : Int) (w : World) : (Update dt w).frameCount = w.frameCount := by
  unfold Update
  by_cases h : Int.tmod (wrapInt (w.updateCount + 1)) 60 = 0 <;> simp [h]

theorem Update_closeQueries (dt : Int) (w : World) :
    (Update dt w).closeQueries = w.closeQueries := by
  unfold Update
  by_cases h : Int.tmod (wrapInt (w.updateCount + 1)) 60 = 0 <;> simp [h]

theorem Update_updateCount (dt : Int) (w : World) :
    (Update dt w).updateCount = wrapInt (w.updateCount + 1) := by
  unfold Update
  by_cases h : Int.tmod (wrapInt (w.updateCount + 1)) 60 = 0 <;> simp [h]

theorem Update_trace (dt : Int) (w : World) :
    (Update dt w).trace = w.trace ++ (.update dt :: heartbeatOf (wrapInt (w.updateCount + 1)) dt) := by
  unfold Update heartbeatOf
  by_cases h : Int.tmod (wrapInt (w.updateCount + 1)) 60 = 0 <;> simp [h]

namespace Headless

theorem ProcessInput_trace_main (w : World) :
    (ProcessInput w).trace = w.trace ++
      [.pollEvents, .updateInputState, .isKeyPressed 27 (decide (300 < wrapInt (w.frameCount + 1)))] := by
  unfold ProcessInput
  by_cases h : 300 < wrapInt (w.frameCount + 1) <;>
    simp [PollEvents, UpdateInputState, IsKeyPressed, RequestExit, h]

theorem ProcessInput_isRunning_main (w : World) :
    (ProcessInput w).isRunning = (w.isRunning && decide (wrapInt (w.frameCount + 1) ≤ 300)) := by
  unfold ProcessInput
  by_cases h : 300 < wrapInt (w.frameCount + 1)
  · have h2 : ¬ wrapInt (w.frameCount + 1) ≤ 300 := by omega
    simp [PollEvents, UpdateInputState, IsKeyPressed, RequestExit, h, h2]
  · have h2 : wrapInt (w.frameCount + 1) ≤ 300 := by omega
    simp [PollEvents, UpdateInputState, IsKeyPressed, RequestExit, h, h2]

theorem ProcessInput_frameCount_main (w : World) :
    (ProcessInput w).frameCount = wrapInt (w.frameCount + 1) := by
  unfold ProcessInput
  by_cases h : 300 < wrapInt (w.frameCount + 1) <;>
    simp [PollEvents, UpdateInputState, IsKeyPressed, RequestExit, h]

theorem ProcessInput_updateCount_main (w : World) :
    (ProcessInput w).updateCount = w.updateCount := by
  unfold ProcessInput
  by_cases h : 300 < wrapInt (w.frameCount + 1) <;>
    simp [PollEvents, UpdateInputState, IsKeyPressed, RequestExit, h]

theorem ProcessInput_lastTime_main (w : World) : (ProcessInput w).lastTime = w.lastTime := by
  unfold ProcessInput
  by_cases h : 300 < wrapInt (w.frameCount + 1) <;>
    simp [PollEvents, UpdateInputState, IsKeyPressed, RequestExit, h]

theorem ProcessInput_clockReads_main (w : World) : (ProcessInput w).clockReads = w.clockReads := by
  unfold ProcessInput
  by_cases h : 300 < wrapInt (w.frameCount + 1) <;>
    simp [PollEvents, UpdateInputState, IsKeyPressed, RequestExit, h]

theorem loopBody_isRunning_main (env : Env) (w : World) :
    (loopBody env w).isRunning = (w.isRunning && decide (wrapInt (w.frameCount + 1) ≤ 300)) := by
  simp [loopBody, PresentFrame, SwapBuffers, Render, Update_isRunning, UpdateTime_isRunning,
    ProcessInput_isRunning_main]

theorem loopBody_frameCount_main (env : Env) (w : World) :
    (loopBody env w).frameCount = wrapInt (w.frameCount + 1) := by
  simp [loopBody, PresentFrame, SwapBuffers, Render, Update_frameCount, UpdateTime_frameCount,
    ProcessInput_frameCount_main]

theorem loopBody_updateCount_main (env : Env) (w : World) :
    (loopBody env w).updateCount = wrapInt (w.updateCount + 1) := by
  simp [loopBody, PresentFrame, SwapBuffers, Render, Update_updateCount, UpdateTime_updateCount,
    ProcessInput_updateCount_main]

theorem loopBody_trace_main (env : Env) (w : World) :
    (loopBody env w).trace = w.trace ++
      ([.pollEvents, .updateInputState, .isKeyPressed 27 (decide (300 < wrapInt (w.frameCount + 1))),
        .updateTime (UpdateTime env w).1, .update (UpdateTime env w).1]
        ++ heartbeatOf (wrapInt (w.updateCount + 1)) (UpdateTime env w).1
        ++ [.render, .presentFrame, .swapBuffers, .sleepFor 16]) := by
  have hdt : (UpdateTime env (ProcessInput w)).1 = (UpdateTime env w).1 :=
    UpdateTime_congr env w _ (ProcessInput_lastTime_main w) (ProcessInput_clockReads_main w)
  simp [loopBody, PresentFrame, SwapBuffers, Render, Update_trace, UpdateTime_trace,
    UpdateTime_updateCount, ProcessInput_trace_main, ProcessInput_updateCount_main, hdt]

end Headless

namespace Headless

theorem iterate_frameCount_main (env : Env) (k : Nat) (w : World) :
    wrapInt (((loopBody env)^[k] w).frameCount + 1) = wrapInt (w.frameCount + k + 1) := by
  induction k with
  | zero => simp
  | succ k ih =>
    rw [Function.iterate_succ_apply', loopBody_frameCount_main, ih, wrapInt_succ]
    push_cast
    ring_nf

theorem iterate_updateCount_main (env : Env) (k : Nat) (w : World) :
    wrapInt (((loopBody env)^[k] w).updateCount + 1) = wrapInt (w.updateCount + k + 1) := by
  induction k with
  | zero => simp
  | succ k ih =>
    rw [Function.iterate_succ_apply', loopBody_updateCount_main, ih, wrapInt_succ]
    push_cast
    ring_nf

theorem iterate_isRunning_main (env : Env) (k : Nat) (w : World) (hrun : w.isRunning = true)
    (hquiet : ∀ j : Nat, j < k → wrapInt (w.frameCount + j + 1) ≤ 300) :
    ((loopBody env)^[k] w).isRunning = true := by
  induction k with
  | zero => exact hrun
  | succ k ih =>
    rw [Function.iterate_succ_apply', loopBody_isRunning_main, iterate_frameCount_main,
      ih (fun j hj => hquiet j (by omega))]
    simpa using hquiet k (by omega)

theorem loopBody_updateCalls_main (env : Env) (w : World) :
    updateCalls (loopBody env w).trace = updateCalls w.trace + 1 := by
  rw [loopBody_trace_main]
  unfold heartbeatOf
  split <;> simp [updateCalls, List.countP_append, List.countP_cons]

theorem loopBody_stopAnswers_main (env : Env) (w : World) :
    stopAnswers (loopBody env w).trace
      = stopAnswers w.trace ++ [decide (300 < wrapInt (w.frameCount + 1))] := by
  rw [loopBody_trace_main]
  unfold heartbeatOf
  split <;> simp [stopAnswers, List.filterMap_append, List.filterMap_cons]

theorem loopBody_heartbeats_main (env : Env) (w : World) :
    heartbeats (loopBody env w).trace
      = heartbeats w.trace ++
        (if Int.tmod (wrapInt (w.updateCount + 1)) 60 = 0 then [Int.tdiv (wrapInt (w.updateCount + 1)) 60] else []) := by
  rw [loopBody_trace_main]
  unfold heartbeatOf
  split <;> simp [heartbeats, List.filterMap_append, List.filterMap_cons]

theorem iterate_updateCalls_main (env : Env) (k : Nat) (w : World) :
    updateCalls ((loopBody env)^[k] w).trace = updateCalls w.trace + k := by
  induction k with
  | zero => rfl
  | succ k ih => rw [Function.iterate_succ_apply', loopBody_updateCalls_main, ih]; omega

theorem whileLoop_iterate_main (env : Env) (n : Nat) :
    ∀ (w : World) (fuel : Nat), n < fuel →
      (∀ k, k < n → ((loopBody env)^[k] w).isRunning = true) →
      ((loopBody env)^[n] w).isRunning = false →
      whileLoop env fuel w = some ((loopBody env)^[n] w) := by
  induction n with
  | zero =>
    intro w fuel hf _ hstop
    obtain ⟨f, rfl⟩ : ∃ f, fuel = f + 1 := ⟨fuel - 1, by omega⟩
    have hstop0 : w.isRunning = false := hstop
    simp [whileLoop, IsRunning, hstop0]
  | succ n ih =>
    intro w fuel hf hgo hstop
    obtain ⟨f, rfl⟩ : ∃ f, fuel = f + 1 := ⟨fuel - 1, by omega⟩
    have h0 : w.isRunning = true := hgo 0 (by omega)
    have := ih (loopBody env w) f (by omega)
      (fun k hk => by simpa [Function.iterate_succ_apply] using hgo (k + 1) (by omega))
      (by simpa [Function.iterate_succ_apply] using hstop)
    simpa [whileLoop, IsRunning, h0, Function.iterate_succ_apply] using this

end Headless

/-! ## The loop of `engine.cpp` -/

namespace Windowed

theorem ProcessInput_trace_engine (env : Env) (w : World) :
    (ProcessInput env w).trace = w.trace ++
      [.pollEvents, .windowShouldClose (env.windowShouldClose w.closeQueries),
        .updateInputState] := by
  simp [ProcessInput, PollEvents, UpdateInputState, WindowShouldClose]

theorem ProcessInput_isRunning_engine (env : Env) (w : World) :
    (ProcessInput env w).isRunning = !env.windowShouldClose w.closeQueries := by
  simp [ProcessInput, PollEvents, UpdateInputState, WindowShouldClose]

theorem ProcessInput_closeQueries_engine (env : Env) (w : World) :
    (ProcessInput env w).closeQueries = w.closeQueries + 1 := by
  simp [ProcessInput, PollEvents, UpdateInputState, WindowShouldClose]

theorem ProcessInput_updateCount_engine (env : Env) (w : World) :
    (ProcessInput env w).updateCount = w.updateCount := by
  simp [ProcessInput, PollEvents, UpdateInputState, WindowShouldClose]

theorem ProcessInput_lastTime_engine (env : Env) (w : World) :
    (ProcessInput env w).lastTime = w.lastTime := by
  simp [ProcessInput, PollEvents, UpdateInputState, WindowShouldClose]

theorem ProcessInput_clockReads_engine (env : Env) (w : World) :
    (ProcessInput env w).clockReads = w.clockReads := by
  simp [ProcessInput, PollEvents, UpdateInputState, WindowShouldClose]

theorem loopBody_isRunning_engine (env : Env) (w : World) :
    (loopBody env w).isRunning = !env.windowShouldClose w.closeQueries := by
  simp [loopBody, Render, Update_isRunning, UpdateTime_isRunning, ProcessInput_isRunning_engine]

theorem loopBody_closeQueries_engine (env : Env) (w : World) :
    (loopBody env w).closeQueries = w.closeQueries + 1 := by
  simp [loopBody, Render, Update_closeQueries, UpdateTime_closeQueries,
    ProcessInput_closeQueries_engine]

theorem loopBody_trace_engine (env : Env) (w : World) :
    (loopBody env w).trace = w.trace ++
      ([.pollEvents, .windowShouldClose (env.windowShouldClose w.closeQueries),
        .updateInputState, .updateTime (UpdateTime env w).1, .update (UpdateTime env w).1]
        ++ heartbeatOf (wrapInt (w.updateCount + 1)) (UpdateTime env w).1
        ++ [.render, .beginDrawing, .endDrawing]) := by
  have hdt : (UpdateTime env (ProcessInput env w)).1 = (UpdateTime env w).1 :=
    UpdateTime_congr env w _ (ProcessInput_lastTime_engine env w) (ProcessInput_clockReads_engine env w)
  simp [loopBody, Render, Update_trace, UpdateTime_trace, UpdateTime_updateCount,
    ProcessInput_trace_engine, ProcessInput_updateCount_engine, hdt]

theorem loopBody_stopAnswers_engine (env : Env) (w : World) :
    stopAnswers (loopBody env w).trace
      = stopAnswers w.trace ++ [env.windowShouldClose w.closeQueries] := by
  rw [loopBody_trace_engine]
  unfold heartbeatOf
  split <;> simp [stopAnswers, List.filterMap_append, List.filterMap_cons]

theorem iterate_closeQueries_engine (env : Env) (k : Nat) (w : World) :
    ((loopBody env)^[k] w).closeQueries = w.closeQueries + k := by
  induction k with
  | zero => rfl
  | succ k ih => rw [Function.iterate_succ_apply', loopBody_closeQueries_engine, ih]; omega

theorem iterate_isRunning_engine (env : Env) (k : Nat) (w : World) (hrun : w.isRunning = true)
    (hquiet : ∀ j, j < k → env.windowShouldClose (w.closeQueries + j) = false) :
    ((loopBody env)^[k] w).isRunning = true := by
  cases k with
  | zero => exact hrun
  | succ k =>
    rw [Function.iterate_succ_apply', loopBody_isRunning_engine, iterate_closeQueries_engine]
    simpa using hquiet k (by omega)

theorem whileLoop_iterate_engine (env : Env) (n : Nat) :
    ∀ (w : World) (fuel : Nat), n < fuel →
      (∀ k, k < n → ((loopBody env)^[k] w).isRunning = true) →
      ((loopBody env)^[n] w).isRunning = false →
      whileLoop env fuel w = some ((loopBody env)^[n] w) := by
  induction n with
  | zero =>
    intro w fuel hf _ hstop
    obtain ⟨f, rfl⟩ : ∃ f, fuel = f + 1 := ⟨fuel - 1, by omega⟩
    have hstop0 : w.isRunning = false := hstop
    simp [whileLoop, IsRunning, hstop0]
  | succ n ih =>
    intro w fuel hf hgo hstop
    obtain ⟨f, rfl⟩ : ∃ f, fuel = f + 1 := ⟨fuel - 1, by omega⟩
    have h0 : w.isRunning = true := hgo 0 (by omega)
    have := ih (loopBody env w) f (by omega)
      (fun k hk => by simpa [Function.iterate_succ_apply] using hgo (k + 1) (by omega))
      (by simpa [Function.iterate_succ_apply] using hstop)
    simpa [whileLoop, IsRunning, h0, Function.iterate_succ_apply] using this

end Windowed

/-! ## C3: number of passes through the loop -/

theorem RequestExit_iterate (k : Nat) (w : World) :
    RequestExit^[k + 1] w = RequestExit w := by
  induction k with
  | zero => rfl
  | succ k ih => rw [Function.iterate_succ_apply', ih]; rfl

theorem Headless.whileLoop_stopped_main (env : Env) :
    ∀ (fuel : Nat) (w w' : World), Headless.whileLoop env fuel w = some w' →
      w'.isRunning = false := by
  intro fuel
  induction fuel with
  | zero => intro w w' h; simp [Headless.whileLoop] at h
  | succ f ih =>
    intro w w' h
    by_cases hr : w.isRunning = true
    · simp only [Headless.whileLoop, IsRunning, hr, if_true] at h
      exact ih _ _ h
    · simp only [Headless.whileLoop, IsRunning, hr] at h
      have : w = w' := by simpa using h
      subst this
      simpa using hr

theorem Windowed.whileLoop_stopped_engine (env : Env) :
    ∀ (fuel : Nat) (w w' : World), Windowed.whileLoop env fuel w = some w' →
      w'.isRunning = false := by
  intro fuel
  induction fuel with
  | zero => intro w w' h; simp [Windowed.whileLoop] at h
  | succ f ih =>
    intro w w' h
    by_cases hr : w.isRunning = true
    · simp only [Windowed.whileLoop, IsRunning, hr, if_true] at h
      exact ih _ _ h
    · simp only [Windowed.whileLoop, IsRunning, hr] at h
      have : w = w' := by simpa using h
      subst this
      simpa using hr

theorem Headless.Run_stopped_main (env : Env) (fuel : Nat) (w w' : World)
    (h : Headless.Run env fuel w = some w') : w'.isRunning = false := by
  unfold Headless.Run at h
  cases hl : Headless.whileLoop env fuel (say .startingLoop w) with
  | none => rw [hl] at h; simp at h
  | some v =>
    have hv := Headless.whileLoop_stopped_main env fuel _ _ hl
    rw [hl] at h
    have : say .exitingLoop v = w' := by simpa using h
    subst this
    simpa using hv

theorem Windowed.Run_stopped_engine (env : Env) (fuel : Nat) (w w' : World)
    (h : Windowed.Run env fuel w = some w') : w'.isRunning = false := by
  unfold Windowed.Run at h
  cases hl : Windowed.whileLoop env fuel (say .startingLoop w) with
  | none => rw [hl] at h; simp at h
  | some v =>
    have hv := Windowed.whileLoop_stopped_engine env fuel _ _ hl
    rw [hl] at h
    have : say .exitingLoop v = w' := by simpa using h
    subst this
    simpa using hv

theorem Headless.Run_of_stopped_main (env : Env) (fuel : Nat) (w : World)
    (hstop : w.isRunning = false) :
    Headless.Run env (fuel + 1) w = some (say .exitingLoop (say .startingLoop w)) := by
  simp [Headless.Run, Headless.whileLoop, IsRunning, hstop]

theorem Windowed.Run_of_stopped_engine (env : Env) (fuel : Nat) (w : World)
    (hstop : w.isRunning = false) :
    Windowed.Run env (fuel + 1) w = some (say .exitingLoop (say .startingLoop w)) := by
  simp [Windowed.Run, Windowed.whileLoop, IsRunning, hstop]

/-- C6. For every state and every `k ≥ 1`, `k` consecutive calls of
`RequestExit` give the state a single call gives: the running flag false and
every other field unchanged. A `Run` (of either file, with any fuel `≥ 1`)
started from that state returns after zero passes through the loop body, having
printed only its two banners, with the running flag still false; more
generally no `Run` ever returns with the flag true. -/
theorem C6_RequestExit_one_way (w : World) (k : Nat) (hk : 1 ≤ k) :
    RequestExit^[k] w = RequestExit w ∧
    RequestExit w = { w with isRunning := false } ∧
    (∀ env fuel, 1 ≤ fuel → ∃ w',
      Headless.Run env fuel (RequestExit^[k] w) = some w' ∧
      w'.isRunning = false ∧
      w'.trace = w.trace ++ [.print .startingLoop, .print .exitingLoop] ∧
      w'.fields = (RequestExit w).fields) ∧
    (∀ env fuel, 1 ≤ fuel → ∃ w',
      Windowed.Run env fuel (RequestExit^[k] w) = some w' ∧
      w'.isRunning = false ∧
      w'.trace = w.trace ++ [.print .startingLoop, .print .exitingLoop] ∧
      w'.fields = (RequestExit w).fields) ∧
    (∀ env fuel v v', Headless.Run env fuel v = some v' → v'.isRunning = false) ∧
    (∀ env fuel v v', Windowed.Run env fuel v = some v' → v'.isRunning = false) := by
  obtain ⟨j, rfl⟩ : ∃ j, k = j + 1 := ⟨k - 1, by omega⟩
  rw [RequestExit_iterate]
  refine ⟨rfl, rfl, ?_, ?_, Headless.Run_stopped_main, Windowed.Run_stopped_engine⟩
  · intro env fuel hf
    obtain ⟨f, rfl⟩ : ∃ f, fuel = f + 1 := ⟨fuel - 1, by omega⟩
    exact ⟨_, Headless.Run_of_stopped_main env f (RequestExit w) rfl, rfl, by simp [RequestExit], rfl⟩
  · intro env fuel hf
    obtain ⟨f, rfl⟩ : ∃ f, fuel = f + 1 := ⟨fuel - 1, by omega⟩
    exact ⟨_, Windowed.Run_of_stopped_engine env f (RequestExit w) rfl, rfl, by simp [RequestExit], rfl⟩

/-- C6 on the successfully initialised `main.cpp` application, with three
calls of `RequestExit`. -/
theorem C6_RequestExit_one_way_witness :
    1 ≤ 3 ∧ RequestExit^[3] Headless.ready = RequestExit Headless.ready ∧
    (RequestExit Headless.ready).isRunning = false ∧ Headless.ready.isRunning = true :=
  ⟨by decide, (C6_RequestExit_one_way Headless.ready 3 (by decide)).1, rfl, rfl⟩

/-! ## C9: order of the phases -/

theorem Headless.loopBody_isIteration_main (env : Env) (w : World) :
    ∃ b, Headless.IsIteration b ∧ (Headless.loopBody env w).trace = w.trace ++ b := by
  refine ⟨_, ⟨decide (300 < wrapInt (w.frameCount + 1)), (UpdateTime env w).1,
    heartbeatOf (wrapInt (w.updateCount + 1)) (UpdateTime env w).1, ?_, rfl⟩,
    Headless.loopBody_trace_main env w⟩
  unfold heartbeatOf
  split
  · exact Or.inr ⟨_, rfl⟩
  · exact Or.inl rfl

theorem Windowed.loopBody_isIteration_engine (env : Env) (w : World) :
    ∃ b, Windowed.IsIteration b ∧ (Windowed.loopBody env w).trace = w.trace ++ b := by
  refine ⟨_, ⟨env.windowShouldClose w.closeQueries, (UpdateTime env w).1,
    heartbeatOf (wrapInt (w.updateCount + 1)) (UpdateTime env w).1, ?_, rfl⟩,
    Windowed.loopBody_trace_engine env w⟩
  unfold heartbeatOf
  split
  · exact Or.inr ⟨_, rfl⟩
  · exact Or.inl rfl

theorem Headless.whileLoop_blocks_main (env : Env) :
    ∀ (fuel : Nat) (w w' : World), Headless.whileLoop env fuel w = some w' →
      ∃ blocks : List (List Event),
        (∀ b ∈ blocks, Headless.IsIteration b) ∧ w'.trace = w.trace ++ blocks.flatten := by
  intro fuel
  induction fuel with
  | zero => intro w w' h; simp [Headless.whileLoop] at h
  | succ f ih =>
    intro w w' h
    by_cases hr : w.isRunning = true
    · simp only [Headless.whileLoop, IsRunning, hr, if_true] at h
      obtain ⟨blocks, hall, htrace⟩ := ih _ _ h
      obtain ⟨b, hb, hbt⟩ := Headless.loopBody_isIteration_main env w
      refine ⟨b :: blocks, ?_, ?_⟩
      · intro x hx
        rcases List.mem_cons.mp hx with rfl | hx
        · exact hb
        · exact hall x hx
      · rw [htrace, hbt, List.flatten_cons, List.append_assoc]
    · simp only [Headless.whileLoop, IsRunning, hr] at h
      have : w = w' := by simpa using h
      subst this
      exact ⟨[], by simp, by simp⟩

theorem Windowed.whileLoop_blocks_engine (env : Env) :
    ∀ (fuel : Nat) (w w' : World), Windowed.whileLoop env fuel w = some w' →
      ∃ blocks : List (List Event),
        (∀ b ∈ blocks, Windowed.IsIteration b) ∧ w'.trace = w.trace ++ blocks.flatten := by
  intro fuel
  induction fuel with
  | zero => intro w w' h; simp [Windowed.whileLoop] at h
  | succ f ih =>
    intro w w' h
    by_cases hr : w.isRunning = true
    · simp only [Windowed.whileLoop, IsRunning, hr, if_true] at h
      obtain ⟨blocks, hall, htrace⟩ := ih _ _ h
      obtain ⟨b, hb, hbt⟩ := Windowed.loopBody_isIteration_engine env w
      refine ⟨b :: blocks, ?_, ?_⟩
      · intro x hx
        rcases List.mem_cons.mp hx with rfl | hx
        · exact hb
        · exact hall x hx
      · rw [htrace, hbt, List.flatten_cons, List.append_assoc]
    · simp only [Windowed.whileLoop, IsRunning, hr] at h
      have : w = w' := by simpa using h
      subst this
      exact ⟨[], by simp, by simp⟩

theorem Headless.Run_trace_main (env : Env) (fuel : Nat) (w w' : World)
    (h : Headless.Run env fuel w = some w') :
    RunTrace Headless.IsIteration w.trace w'.trace := by
  unfold Headless.Run at h
  cases hl : Headless.whileLoop env fuel (say .startingLoop w) with
  | none => rw [hl] at h; simp at h
  | some v =>
    obtain ⟨blocks, hall, htrace⟩ := Headless.whileLoop_blocks_main env fuel _ _ hl
    rw [hl] at h
    have : say .exitingLoop v = w' := by simpa using h
    subst this
    exact ⟨blocks, hall, by simp [htrace]⟩

theorem Windowed.Run_trace_engine (env : Env) (fuel : Nat) (w w' : World)
    (h : Windowed.Run env fuel w = some w') :
    RunTrace Windowed.IsIteration w.trace w'.trace := by
  unfold Windowed.Run at h
  cases hl : Windowed.whileLoop env fuel (say .startingLoop w) with
  | none => rw [hl] at h; simp at h
  | some v =>
    obtain ⟨blocks, hall, htrace⟩ := Windowed.whileLoop_blocks_engine env fuel _ _ hl
    rw [hl] at h
    have : say .exitingLoop v = w' := by simpa using h
    subst this
    exact ⟨blocks, hall, by simp [htrace]⟩

/-- C9. In both files every pass through the loop body of `Run`, from any
state, adds to the trace exactly one block of the form: `PollEvents`, then
`UpdateInputState` (input sampling; the exit-key or close query belongs to this
phase), then exactly one `UpdateTime`, then `Update` called with the value
`UpdateTime` returned, then `Render` and the presentation of the frame. The
trace added by a `Run` that returns is the loop banner, a sequence of such
complete blocks one after the other, and the exit banner. -/
theorem C9_phase_order (env : Env) (w : World) :
    (∃ b, Headless.IsIteration b ∧ (Headless.loopBody env w).trace = w.trace ++ b) ∧
    (∃ b, Windowed.IsIteration b ∧ (Windowed.loopBody env w).trace = w.trace ++ b) ∧
    (∀ fuel w', Headless.Run env fuel w = some w' →
      RunTrace Headless.IsIteration w.trace w'.trace) ∧
    (∀ fuel w', Windowed.Run env fuel w = some w' →
      RunTrace Windowed.IsIteration w.trace w'.trace) :=
  ⟨Headless.loopBody_isIteration_main env w, Windowed.loopBody_isIteration_engine env w,
    fun fuel w' h => Headless.Run_trace_main env fuel w w' h,
    fun fuel w' h => Windowed.Run_trace_engine env fuel w w' h⟩

/-- C9 on the `engine.cpp` application whose window reports the close button at
the third query: the run returns and its trace is made of complete passes. -/
theorem C9_phase_order_witness :
    ∃ w', Windowed.Run closingEnv 4 Windowed.ready = some w' ∧
      RunTrace Windowed.IsIteration Windowed.ready.trace w'.trace :=
  ⟨_, rfl, (C9_phase_order closingEnv Windowed.ready).2.2.2 4 _ rfl⟩

/-! ## C10: the heartbeat of `Update` -/

theorem Update_heartbeats (dt : Int) (w : World) :
    heartbeats (Update dt w).trace = heartbeats w.trace ++
      (if Int.tmod (wrapInt (w.updateCount + 1)) 60 = 0 then [Int.tdiv (wrapInt (w.updateCount + 1)) 60] else []) := by
  rw [Update_trace]
  unfold heartbeatOf
  split <;> simp [heartbeats, List.filterMap_append, List.filterMap_cons]

theorem updates_append (dts : List Int) (dt : Int) (w : World) :
    updates (dts ++ [dt]) w = Update dt (updates dts w) := by
  induction dts generalizing w with
  | nil => rfl
  | cons d dts ih => simp [updates, ih]

theorem seconds_succ (n : Nat) :
    heartbeatNumbers (n + 1) = heartbeatNumbers n ++
      (if Int.tmod ((n : Int) + 1) 60 = 0 then [Int.tdiv ((n : Int) + 1) 60] else []) := by
  have hm : Int.tmod ((n : Int) + 1) 60 = (((n + 1) % 60 : Nat) : Int) := by
    rw [Int.tmod_eq_emod (by omega) (by omega)]
    omega
  have hd : Int.tdiv ((n : Int) + 1) 60 = (((n + 1) / 60 : Nat) : Int) := by
    rw [Int.tdiv_eq_ediv (by omega) (by omega)]
    omega
  rw [hm, hd]
  unfold heartbeatNumbers
  by_cases h : (n + 1) % 60 = 0
  · have hq : (n + 1) / 60 = n / 60 + 1 := by omega
    have hz : (((n + 1) % 60 : Nat) : Int) = 0 := by rw [h]; rfl
    rw [if_pos hz, hq, List.range_succ, List.map_append]
    simp
  · have hq : (n + 1) / 60 = n / 60 := by omega
    have hz : ¬ (((n + 1) % 60 : Nat) : Int) = 0 := fun hc => h (by exact_mod_cast hc)
    rw [if_neg hz, hq]
    simp

theorem updates_count (dts : List Int) (w : World) :
    wrapInt ((updates dts w).updateCount + 1) = wrapInt (w.updateCount + dts.length + 1) := by
  induction dts using List.reverseRecOn with
  | nil => simp [updates]
  | append_singleton dts dt ih =>
    rw [updates_append, Update_updateCount, ih, wrapInt_succ, List.length_append]
    push_cast
    simp only [List.length_singleton, Nat.cast_one]
    ring_nf

theorem updates_in_range (dts : List Int) (w : World) (hfresh : w.updateCount = 0) :
    dts.length ≤ 2147483647 →
      (updates dts w).updateCount = dts.length ∧
      heartbeats (updates dts w).trace = heartbeats w.trace ++ heartbeatNumbers dts.length := by
  induction dts using List.reverseRecOn with
  | nil =>
    intro _
    exact ⟨by simpa [updates] using hfresh, by simp [updates, heartbeatNumbers]⟩
  | append_singleton dts dt ih =>
    intro hn
    rw [List.length_append, List.length_singleton] at hn
    obtain ⟨hc, hb⟩ := ih (by omega)
    have hw : wrapInt ((updates dts w).updateCount + 1) = (dts.length : Int) + 1 := by
      rw [hc]
      exact wrapInt_of_range _ (by omega) (by omega)
    constructor
    · rw [updates_append, Update_updateCount, hw, List.length_append, List.length_singleton]
      push_cast
      rfl
    · rw [updates_append, Update_heartbeats, hw, hb, List.length_append, List.length_singleton,
        seconds_succ, List.append_assoc]

theorem updates_replicate_succ (n : Nat) (dt : Int) (w : World) :
    (updates (List.replicate (n + 1) dt) w).updateCount
      = wrapInt (w.updateCount + (n : Int) + 1) := by
  rw [List.replicate_succ', updates_append, Update_updateCount, updates_count,
    List.length_replicate]

/-! ## C2: `main` -/

theorem heartbeatOf_printed (l : Line) (hl : l.plain = true) (count : Int) (dt : Int) :
    printed l (heartbeatOf count dt) = 0 := by
  unfold heartbeatOf
  split
  · cases l <;> simp_all [printed, Line.plain]
  · simp [printed]

theorem printed_append (l : Line) (a b : List Event) :
    printed l (a ++ b) = printed l a + printed l b := by
  simp [printed, List.count_append]

theorem Headless.loopBody_printed_main (env : Env) (w : World) (l : Line) (hl : l.plain = true) :
    printed l (Headless.loopBody env w).trace = printed l w.trace := by
  rw [Headless.loopBody_trace_main, printed_append, printed_append, printed_append,
    heartbeatOf_printed l hl]
  simp [printed]

theorem Windowed.loopBody_printed_engine (env : Env) (w : World) (l : Line) (hl : l.plain = true) :
    printed l (Windowed.loopBody env w).trace = printed l w.trace := by
  rw [Windowed.loopBody_trace_engine, printed_append, printed_append, printed_append,
    heartbeatOf_printed l hl]
  simp [printed]

theorem Headless.iterate_printed_main (env : Env) (l : Line) (hl : l.plain = true) (k : Nat)
    (w : World) : printed l ((Headless.loopBody env)^[k] w).trace = printed l w.trace := by
  induction k with
  | zero => rfl
  | succ k ih => rw [Function.iterate_succ_apply', Headless.loopBody_printed_main env _ l hl, ih]

theorem Windowed.iterate_printed_engine (env : Env) (l : Line) (hl : l.plain = true) (k : Nat)
    (w : World) : printed l ((Windowed.loopBody env)^[k] w).trace = printed l w.trace := by
  induction k with
  | zero => rfl
  | succ k ih => rw [Function.iterate_succ_apply', Windowed.loopBody_printed_engine env _ l hl, ih]

theorem Headless.iterate_trace_main (env : Env) (k : Nat) (w : World) :
    ∃ t, ((Headless.loopBody env)^[k] w).trace = w.trace ++ t := by
  induction k with
  | zero => exact ⟨[], by simp⟩
  | succ k ih =>
    obtain ⟨t, ht⟩ := ih
    rw [Function.iterate_succ_apply', Headless.loopBody_trace_main, ht]
    exact ⟨_, List.append_assoc _ _ _⟩

theorem Windowed.iterate_trace_engine (env : Env) (k : Nat) (w : World) :
    ∃ t, ((Windowed.loopBody env)^[k] w).trace = w.trace ++ t := by
  induction k with
  | zero => exact ⟨[], by simp⟩
  | succ k ih =>
    obtain ⟨t, ht⟩ := ih
    rw [Function.iterate_succ_apply', Windowed.loopBody_trace_engine, ht]
    exact ⟨_, List.append_assoc _ _ _⟩

theorem Headless.Run_eq_main (env : Env) (w : World) (m : Nat) (hrun : w.isRunning = true)
    (hquiet : ∀ j : Nat, j < m → wrapInt (w.frameCount + j + 1) ≤ 300)
    (hstop : 300 < wrapInt (w.frameCount + m + 1))
    (fuel : Nat) (hf : m + 1 < fuel) :
    Headless.Run env fuel w
      = some (say .exitingLoop ((Headless.loopBody env)^[m + 1] (say .startingLoop w))) := by
  have hlast : ((Headless.loopBody env)^[m + 1] (say .startingLoop w)).isRunning = false := by
    rw [Function.iterate_succ_apply', Headless.loopBody_isRunning_main,
      Headless.iterate_frameCount_main]
    have : ¬ (wrapInt (w.frameCount + m + 1) ≤ 300) := by omega
    simp [this]
  have hgo : ∀ k, k < m + 1 →
      ((Headless.loopBody env)^[k] (say .startingLoop w)).isRunning = true := by
    intro k hk
    exact Headless.iterate_isRunning_main env k _ hrun (fun j hj => hquiet j (by omega))
  unfold Headless.Run
  rw [Headless.whileLoop_iterate_main env (m + 1) (say .startingLoop w) fuel hf hgo hlast]
  rfl

theorem Windowed.Run_eq_engine (env : Env) (w : World) (m : Nat) (hrun : w.isRunning = true)
    (hquiet : ∀ j, j < m → env.windowShouldClose (w.closeQueries + j) = false)
    (hstop : env.windowShouldClose (w.closeQueries + m) = true)
    (fuel : Nat) (hf : m + 1 < fuel) :
    Windowed.Run env fuel w
      = some (say .exitingLoop ((Windowed.loopBody env)^[m + 1] (say .startingLoop w))) := by
  have hlast : ((Windowed.loopBody env)^[m + 1] (say .startingLoop w)).isRunning = false := by
    rw [Function.iterate_succ_apply', Windowed.loopBody_isRunning_engine,
      Windowed.iterate_closeQueries_engine]
    simpa using hstop
  have hgo : ∀ k, k < m + 1 →
      ((Windowed.loopBody env)^[k] (say .startingLoop w)).isRunning = true := by
    intro k hk
    exact Windowed.iterate_isRunning_engine env k _ hrun (fun j hj => hquiet j (by omega))
  unfold Windowed.Run
  rw [Windowed.whileLoop_iterate_engine env (m + 1) (say .startingLoop w) fuel hf hgo hlast]
  rfl

theorem Headless.Initialize_fst_main (s : SubSteps) (w : World) :
    (Headless.Initialize s w).1 = s.allOk := by
  obtain ⟨cw, ii, it⟩ := s
  cases cw <;> cases ii <;> cases it <;> rfl

theorem Windowed.Initialize_fst_engine (s : SubSteps) (w : World) :
    (Windowed.Initialize s w).1 = s.allOk := by
  obtain ⟨cw, ii, it⟩ := s
  cases cw <;> cases ii <;> cases it <;> rfl

theorem allOk_eq_stub (s : SubSteps) (h : s.allOk = true) : s = stubSteps := by
  obtain ⟨cw, ii, it⟩ := s
  cases cw <;> cases ii <;> cases it <;> simp_all [SubSteps.allOk, stubSteps]

theorem Headless.main_fail_main (s : SubSteps) (env : Env) (h : s.allOk = false) :
    MainFails (Headless.main s env) := by
  obtain ⟨cw, ii, it⟩ := s
  cases cw <;> cases ii <;> cases it <;> first
    | (exact absurd h (by decide))
    | exact ⟨_, fun _ => rfl, by decide, by decide, by decide, by decide, by decide, by decide⟩

theorem Windowed.main_fail_engine (s : SubSteps) (env : Env) (h : s.allOk = false) :
    MainFails (Windowed.main s env) := by
  obtain ⟨cw, ii, it⟩ := s
  cases cw <;> cases ii <;> cases it <;> first
    | (exact absurd h (by decide))
    | exact ⟨_, fun _ => rfl, by decide, by decide, by decide, by decide, by decide, by decide⟩

theorem Headless.main_eq_main (env : Env) (fuel : Nat) (hf : 301 < fuel) :
    Headless.main stubSteps env fuel = some (0, say .engineFinished (Headless.Shutdown
      (say .exitingLoop ((Headless.loopBody env)^[301] (say .startingLoop Headless.started))))) := by
  have hfc : Headless.started.frameCount = 0 := rfl
  have hrun := Headless.Run_eq_main env Headless.started 300 rfl
    (fun j hj => by rw [hfc]; unfold wrapInt; omega) (by rw [hfc]; unfold wrapInt; omega)
    fuel hf
  show (match Headless.Run env fuel Headless.started with
    | none => none
    | some w2 => some ((0 : Int), say .engineFinished (Headless.Shutdown w2))) = _
  rw [hrun]

theorem Windowed.main_eq_engine (env : Env) (n : Nat)
    (hquiet : ∀ k, k < n → env.windowShouldClose k = false)
    (hstop : env.windowShouldClose n = true) (fuel : Nat) (hf : n + 1 < fuel) :
    Windowed.main stubSteps env fuel = some (0, say .engineFinished (Windowed.Shutdown
      (say .exitingLoop ((Windowed.loopBody env)^[n + 1] (say .startingLoop Windowed.started))))) := by
  have hcq : Windowed.started.closeQueries = 0 := rfl
  have hrun := Windowed.Run_eq_engine env Windowed.started n rfl
    (fun j hj => by rw [hcq, Nat.zero_add]; exact hquiet j hj)
    (by rw [hcq, Nat.zero_add]; exact hstop) fuel hf
  show (match Windowed.Run env fuel Windowed.started with
    | none => none
    | some w2 => some ((0 : Int), say .engineFinished (Windowed.Shutdown w2))) = _
  rw [hrun]

theorem Headless.main_trace_printed_main (env : Env) (k : Nat) (l : Line) (hl : l.plain = true) :
    printed l (say .engineFinished (Headless.Shutdown
      (say .exitingLoop ((Headless.loopBody env)^[k] (say .startingLoop Headless.started))))).trace
    = printed l (Headless.started.trace ++ [.print .startingLoop, .print .exitingLoop,
        .print .shuttingDown, .print .shutdownComplete, .print .engineFinished]) := by
  have h := Headless.iterate_printed_main env l hl k (say .startingLoop Headless.started)
  simp only [Headless.Shutdown, say_eq, record_trace, printed_append] at h ⊢
  rw [h]
  simp only [printed, List.count_cons, List.count_nil]
  omega

theorem Windowed.main_trace_printed_engine (env : Env) (k : Nat) (l : Line) (hl : l.plain = true) :
    printed l (say .engineFinished (Windowed.Shutdown
      (say .exitingLoop ((Windowed.loopBody env)^[k] (say .startingLoop Windowed.started))))).trace
    = printed l (Windowed.started.trace ++ [.print .startingLoop, .print .exitingLoop,
        .print .shuttingDown, .print .shutdownComplete, .print .engineFinished]) := by
  have h := Windowed.iterate_printed_engine env l hl k (say .startingLoop Windowed.started)
  simp only [Windowed.Shutdown, Windowed.CloseWindow, say_eq, record_trace, printed_append] at h ⊢
  rw [h]
  simp only [printed, List.count_cons, List.count_nil]
  simp
  omega

theorem Headless.finish_trace_main (v : World) :
    (say .engineFinished (Headless.Shutdown (say .exitingLoop v))).trace
      = v.trace ++ [.print .exitingLoop, .print .shuttingDown, .print .shutdownComplete,
          .print .engineFinished] := by
  simp [Headless.Shutdown]

theorem Windowed.finish_trace_engine (v : World) :
    (say .engineFinished (Windowed.Shutdown (say .exitingLoop v))).trace
      = v.trace ++ [.print .exitingLoop, .print .shuttingDown, .closeWindow,
          .print .shutdownComplete, .print .engineFinished] := by
  simp [Windowed.Shutdown, Windowed.CloseWindow]

theorem Headless.main_ok_main (env : Env) : MainSucceeds (Headless.main stubSteps env) 301 := by
  refine ⟨_, Headless.main_eq_main env, ?_, ?_, ?_, ?_, ?_⟩
  · rw [Headless.main_trace_printed_main env 301 .startingLoop rfl]; decide
  · rw [Headless.main_trace_printed_main env 301 .exitingLoop rfl]; decide
  · rw [Headless.main_trace_printed_main env 301 .shuttingDown rfl]; decide
  · rw [Headless.main_trace_printed_main env 301 .shutdownComplete rfl]; decide
  · obtain ⟨t, ht⟩ := Headless.iterate_trace_main env 301 (say .startingLoop Headless.started)
    refine ⟨Headless.started.trace, t, [.print .shutdownComplete, .print .engineFinished], ?_⟩
    rw [Headless.finish_trace_main, ht]
    simp only [say_eq, record_trace, List.append_assoc, List.singleton_append, List.cons_append,
      List.nil_append]

theorem Windowed.main_ok_engine (env : Env) (n : Nat)
    (hquiet : ∀ k, k < n → env.windowShouldClose k = false)
    (hstop : env.windowShouldClose n = true) :
    MainSucceeds (Windowed.main stubSteps env) (n + 1) := by
  refine ⟨_, Windowed.main_eq_engine env n hquiet hstop, ?_, ?_, ?_, ?_, ?_⟩
  · rw [Windowed.main_trace_printed_engine env (n + 1) .startingLoop rfl]; decide
  · rw [Windowed.main_trace_printed_engine env (n + 1) .exitingLoop rfl]; decide
  · rw [Windowed.main_trace_printed_engine env (n + 1) .shuttingDown rfl]; decide
  · rw [Windowed.main_trace_printed_engine env (n + 1) .shutdownComplete rfl]; decide
  · obtain ⟨t, ht⟩ := Windowed.iterate_trace_engine env (n + 1) (say .startingLoop Windowed.started)
    refine ⟨Windowed.started.trace, t,
      [.closeWindow, .print .shutdownComplete, .print .engineFinished], ?_⟩
    rw [Windowed.finish_trace_engine, ht]
    simp only [say_eq, record_trace, List.append_assoc, List.singleton_append, List.cons_append,
      List.nil_append]

/-- C2. In `main.cpp`, for every outcome of the sub-steps: if `Initialize`
returned true, `main` returns 0 and `Run` was entered and left exactly once,
followed by exactly one `Shutdown`; if `Initialize` returned false, `main`
returns -1 and neither `Run` nor `Shutdown` was called, no `Update` call was
made and no heartbeat line printed. The same holds in `engine.cpp`, where the
loop returns once the window reports its close button (first at some query
`n`). -/
theorem C2_main_exit_code (s : SubSteps) (env : Env) :
    ((Headless.Initialize s (say .engineStarting fresh)).1 = true →
      MainSucceeds (Headless.main s env) 301) ∧
    ((Headless.Initialize s (say .engineStarting fresh)).1 = false →
      MainFails (Headless.main s env)) ∧
    ((Windowed.Initialize s (say .engineStarting fresh)).1 = true →
      ∀ n, (∀ k, k < n → env.windowShouldClose k = false) → env.windowShouldClose n = true →
        MainSucceeds (Windowed.main s env) (n + 1)) ∧
    ((Windowed.Initialize s (say .engineStarting fresh)).1 = false →
      MainFails (Windowed.main s env)) := by
  rw [Headless.Initialize_fst_main, Windowed.Initialize_fst_engine]
  refine ⟨?_, Headless.main_fail_main s env, ?_, Windowed.main_fail_engine s env⟩
  · intro h
    rw [allOk_eq_stub s h]
    exact Headless.main_ok_main env
  · intro h n hquiet hstop
    rw [allOk_eq_stub s h]
    exact Windowed.main_ok_engine env n hquiet hstop

/-- C2 on concrete runs: `main.cpp` with its stubs returns 0, `main.cpp` with a
failing window creation returns -1, and `engine.cpp` with a window closed at
the third query returns 0. -/
theorem C2_main_exit_code_witness :
    MainSucceeds (Headless.main stubSteps tickEnv) 301 ∧
    MainFails (Headless.main ⟨false, true, true⟩ tickEnv) ∧
    MainSucceeds (Windowed.main stubSteps closingEnv) (2 + 1) :=
  ⟨(C2_main_exit_code stubSteps tickEnv).1 rfl,
    (C2_main_exit_code ⟨false, true, true⟩ tickEnv).2.1 rfl,
    (C2_main_exit_code stubSteps closingEnv).2.2.1 rfl 2
      (fun k hk => by interval_cases k <;> rfl) rfl⟩

/-! ## C10: the heartbeat, continued -/

theorem Headless.iterate_heartbeats_main (env : Env) (k : Nat) (w : World)
    (hfresh : w.updateCount = 0) :
    k ≤ 2147483647 →
      heartbeats ((Headless.loopBody env)^[k] w).trace
        = heartbeats w.trace ++ heartbeatNumbers k := by
  induction k with
  | zero => intro _; simp [heartbeatNumbers]
  | succ k ih =>
    intro hk
    have hw : wrapInt (w.updateCount + (k : Int) + 1) = (k : Int) + 1 := by
      rw [hfresh]
      unfold wrapInt
      omega
    rw [Function.iterate_succ_apply', Headless.loopBody_heartbeats_main, ih (by omega),
      Headless.iterate_updateCount_main, hw, seconds_succ, List.append_assoc]

theorem Headless.main_heartbeats_main (env : Env) :
    ∃ w', (∀ fuel, 301 < fuel → Headless.main stubSteps env fuel = some (0, w')) ∧
      updateCalls w'.trace = 301 ∧ heartbeats w'.trace = [1, 2, 3, 4, 5] := by
  refine ⟨_, Headless.main_eq_main env, ?_, ?_⟩
  · have h := Headless.iterate_updateCalls_main env 301 (say .startingLoop Headless.started)
    simp only [Headless.Shutdown, say_eq, record_trace, updateCalls, List.countP_append] at h ⊢
    rw [h]
    decide
  · have h := Headless.iterate_heartbeats_main env 301 (say .startingLoop Headless.started) rfl
      (by decide)
    simp only [Headless.Shutdown, say_eq, record_trace, heartbeats, List.filterMap_append] at h ⊢
    rw [h]
    decide

/-- C10, as stated, fails beyond the range of the `int` counter: after `2^31`
calls of `Update` on the fresh application the counter is `-2^31`, not `2^31`;
and call number `2^31 + 8`, which is not a multiple of 60, prints a heartbeat,
reporting the second count `-35791394`. -/
theorem C10_counter_wraps :
    (updates (List.replicate 2147483648 0) fresh).updateCount = -2147483648 ∧
    (updates (List.replicate 2147483648 0) fresh).updateCount
      ≠ ((List.replicate 2147483648 (0 : Int)).length : Int) ∧
    (Update 0 (updates (List.replicate 2147483655 0) fresh)).trace
      = (updates (List.replicate 2147483655 0) fresh).trace
        ++ [.update 0, .print (.updateTick (-35791394) 0)] ∧
    (2147483655 + 1) % 60 ≠ 0 := by
  have h1 : (updates (List.replicate 2147483648 0) fresh).updateCount = -2147483648 :=
    (updates_replicate_succ 2147483647 0 fresh).trans (by norm_num [wrapInt, fresh])
  have h2 : (updates (List.replicate 2147483655 0) fresh).updateCount = -2147483641 :=
    (updates_replicate_succ 2147483654 0 fresh).trans (by norm_num [wrapInt, fresh])
  refine ⟨h1, ?_, ?_, by decide⟩
  · rw [h1, List.length_replicate]
    decide
  · rw [Update_trace, h2]
    have hb : Event.update 0 :: heartbeatOf (wrapInt (-2147483641 + 1)) 0
        = [.update 0, .print (.updateTick (-35791394) 0)] := by decide
    rw [hb]

/-- C10, amended. Start from any state whose tick counter is fresh
(`updateCount = 0`) and call `Update` `n` times (with any arguments `dts`,
`n = dts.length`), `n` within the range of the `int` counter (`n ≤ 2^31 - 1`):
the counter is then `n`; the heartbeats printed so far report the second counts
`1, 2, ..., n / 60`, so there are `n / 60` of them and the `k`-th reports `k`;
and the next call, number `n + 1` (still in range), prints a heartbeat exactly
when `n + 1` is a multiple of 60, reporting `(n + 1) / 60` and the delta it was
given. The run of `main.cpp` with its stubs makes 301 `Update` calls and prints
the five heartbeats 1 to 5. -/
theorem C10_heartbeat_in_range (dts : List Int) (w : World) (hfresh : w.updateCount = 0)
    (hn : dts.length ≤ 2147483647) :
    (updates dts w).updateCount = dts.length ∧
    heartbeats (updates dts w).trace = heartbeats w.trace ++ heartbeatNumbers dts.length ∧
    (heartbeatNumbers dts.length).length = dts.length / 60 ∧
    (∀ dt, dts.length < 2147483647 →
      (Update dt (updates dts w)).trace = (updates dts w).trace ++
        .update dt :: (if (dts.length + 1) % 60 = 0
          then [.print (.updateTick (((dts.length + 1) / 60 : Nat) : Int) dt)] else [])) ∧
    (∀ env, ∃ w', (∀ fuel, 301 < fuel → Headless.main stubSteps env fuel = some (0, w')) ∧
      updateCalls w'.trace = 301 ∧ heartbeats w'.trace = [1, 2, 3, 4, 5]) := by
  obtain ⟨hc, hb⟩ := updates_in_range dts w hfresh hn
  refine ⟨hc, hb, by unfold heartbeatNumbers; rw [List.length_map, List.length_range], ?_,
    Headless.main_heartbeats_main⟩
  intro dt hlt
  have hw : wrapInt ((updates dts w).updateCount + 1) = (dts.length : Int) + 1 := by
    rw [hc]
    exact wrapInt_of_range _ (by omega) (by omega)
  have hm : Int.tmod ((dts.length : Int) + 1) 60 = (((dts.length + 1) % 60 : Nat) : Int) := by
    rw [Int.tmod_eq_emod (by omega) (by omega)]
    omega
  have hd : Int.tdiv ((dts.length : Int) + 1) 60 = (((dts.length + 1) / 60 : Nat) : Int) := by
    rw [Int.tdiv_eq_ediv (by omega) (by omega)]
    omega
  rw [Update_trace, hw]
  unfold heartbeatOf
  rw [hm, hd]
  by_cases h : (dts.length + 1) % 60 = 0
  · have hz : (((dts.length + 1) % 60 : Nat) : Int) = 0 := by rw [h]; rfl
    rw [if_pos hz, if_pos h]
  · have hz : ¬ (((dts.length + 1) % 60 : Nat) : Int) = 0 := fun hc => h (by exact_mod_cast hc)
    rw [if_neg hz, if_neg h]

/-- C10 amended, on 120 calls of `Update` on the fresh application: two
heartbeats, numbered 1 and 2. -/
theorem C10_heartbeat_in_range_witness :
    fresh.updateCount = 0 ∧ (List.replicate 120 (7 : Int)).length ≤ 2147483647 ∧
    (updates (List.replicate 120 7) fresh).updateCount = (List.replicate 120 (7 : Int)).length ∧
    heartbeats (updates (List.replicate 120 7) fresh).trace
      = heartbeats fresh.trace ++ heartbeatNumbers (List.replicate 120 (7 : Int)).length :=
  ⟨rfl, by decide, (C10_heartbeat_in_range (List.replicate 120 7) fresh rfl (by decide)).1,
    (C10_heartbeat_in_range (List.replicate 120 7) fresh rfl (by decide)).2.1⟩

/-! ## C5: `IsRunning` along executions -/

theorem Headless.Initialize_isRunning_main (s : SubSteps) (w : World) :
    (Headless.Initialize s w).2.isRunning = (s.allOk || w.isRunning) := by
  obtain ⟨cw, ii, it⟩ := s
  cases cw <;> cases ii <;> cases it <;>
    simp [Headless.Initialize, Headless.CreateWindow, InitializeInput, InitializeTime,
      SubSteps.allOk]

theorem Windowed.Initialize_isRunning_engine (s : SubSteps) (w : World) :
    (Windowed.Initialize s w).2.isRunning = (s.allOk || w.isRunning) := by
  obtain ⟨cw, ii, it⟩ := s
  cases cw <;> cases ii <;> cases it <;>
    simp [Windowed.Initialize, Windowed.CreateWindow, InitializeInput, InitializeTime,
      SubSteps.allOk]

theorem Headless.exitRequested_eq_main (w : World) :
    Headless.exitRequested w = decide (300 < wrapInt (w.frameCount + 1)) := rfl

theorem Windowed.closeRequested_eq_engine (env : Env) (w : World) :
    Windowed.closeRequested env w = env.windowShouldClose w.closeQueries := rfl

theorem Headless.step_flag_main (env : Env) (st : Move) (w : World) (inRun : Bool) (m : Mark)
    (w1 : World) (r1 : Bool) (h : Headless.step env st w inRun = some (m, w1, r1)) :
    w1.isRunning = flagStep w.isRunning m := by
  cases st <;> cases inRun <;> simp only [Headless.step] at h <;>
    try contradiction
  case init.false s =>
    simp only [Option.some.injEq, Prod.mk.injEq] at h
    obtain ⟨rfl, rfl, -⟩ := h
    rw [Headless.Initialize_isRunning_main, Headless.Initialize_fst_main]
    cases s.allOk <;> simp [flagStep]
  case requestExit.false =>
    simp only [Option.some.injEq, Prod.mk.injEq] at h
    obtain ⟨rfl, rfl, -⟩ := h
    rfl
  case shutdown.false =>
    simp only [Option.some.injEq, Prod.mk.injEq] at h
    obtain ⟨rfl, rfl, -⟩ := h
    rfl
  case enterRun.false =>
    simp only [Option.some.injEq, Prod.mk.injEq] at h
    obtain ⟨rfl, rfl, -⟩ := h
    rfl
  case pass.true =>
    by_cases hr : w.isRunning = true
    · simp only [IsRunning, hr, if_true, Option.some.injEq, Prod.mk.injEq] at h
      obtain ⟨rfl, rfl, -⟩ := h
      rw [Headless.loopBody_isRunning_main, Headless.exitRequested_eq_main, hr]
      by_cases hx : 300 < wrapInt (w.frameCount + 1)
      · have : ¬ wrapInt (w.frameCount + 1) ≤ 300 := by omega
        simp [hx, this, flagStep]
      · have : wrapInt (w.frameCount + 1) ≤ 300 := by omega
        simp [hx, this, flagStep]
    · simp [IsRunning, hr] at h
  case leaveRun.true =>
    by_cases hr : w.isRunning = true
    · simp [IsRunning, hr] at h
    · simp only [IsRunning, hr, Option.some.injEq, Prod.mk.injEq] at h
      obtain ⟨rfl, rfl, -⟩ := h
      rfl

theorem Windowed.step_flag_engine (env : Env) (st : Move) (w : World) (inRun : Bool) (m : Mark)
    (w1 : World) (r1 : Bool) (h : Windowed.step env st w inRun = some (m, w1, r1)) :
    w1.isRunning = flagStep w.isRunning m := by
  cases st <;> cases inRun <;> simp only [Windowed.step] at h <;>
    try contradiction
  case init.false s =>
    simp only [Option.some.injEq, Prod.mk.injEq] at h
    obtain ⟨rfl, rfl, -⟩ := h
    rw [Windowed.Initialize_isRunning_engine, Windowed.Initialize_fst_engine]
    cases s.allOk <;> simp [flagStep]
  case requestExit.false =>
    simp only [Option.some.injEq, Prod.mk.injEq] at h
    obtain ⟨rfl, rfl, -⟩ := h
    rfl
  case shutdown.false =>
    simp only [Option.some.injEq, Prod.mk.injEq] at h
    obtain ⟨rfl, rfl, -⟩ := h
    rfl
  case enterRun.false =>
    simp only [Option.some.injEq, Prod.mk.injEq] at h
    obtain ⟨rfl, rfl, -⟩ := h
    rfl
  case pass.true =>
    by_cases hr : w.isRunning = true
    · simp only [IsRunning, hr, if_true, Option.some.injEq, Prod.mk.injEq] at h
      obtain ⟨rfl, rfl, -⟩ := h
      rw [Windowed.loopBody_isRunning_engine, Windowed.closeRequested_eq_engine, hr]
      cases env.windowShouldClose w.closeQueries <;> simp [flagStep]
    · simp [IsRunning, hr] at h
  case leaveRun.true =>
    by_cases hr : w.isRunning = true
    · simp [IsRunning, hr] at h
    · simp only [IsRunning, hr, Option.some.injEq, Prod.mk.injEq] at h
      obtain ⟨rfl, rfl, -⟩ := h
      rfl

theorem Headless.exec_flag_main (env : Env) (steps : List Move) :
    ∀ (w : World) (inRun : Bool) (marks : List Mark) (w' : World) (r' : Bool),
      Headless.exec env steps w inRun = some (marks, w', r') →
      w'.isRunning = flagAfter w.isRunning marks := by
  induction steps with
  | nil =>
    intro w inRun marks w' r' h
    simp only [Headless.exec, Option.some.injEq, Prod.mk.injEq] at h
    obtain ⟨rfl, rfl, -⟩ := h
    rfl
  | cons st rest ih =>
    intro w inRun marks w' r' h
    unfold Headless.exec at h
    cases hs : Headless.step env st w inRun with
    | none => rw [hs] at h; simp at h
    | some x =>
      obtain ⟨m, w1, r1⟩ := x
      simp only [hs] at h
      cases he : Headless.exec env rest w1 r1 with
      | none => simp [he] at h
      | some y =>
        obtain ⟨ms, w2, r2⟩ := y
        simp only [he, Option.some.injEq, Prod.mk.injEq] at h
        obtain ⟨rfl, rfl, -⟩ := h
        rw [ih w1 r1 ms w2 r2 he, Headless.step_flag_main env st w inRun m w1 r1 hs]
        rfl

theorem Windowed.exec_flag_engine (env : Env) (steps : List Move) :
    ∀ (w : World) (inRun : Bool) (marks : List Mark) (w' : World) (r' : Bool),
      Windowed.exec env steps w inRun = some (marks, w', r') →
      w'.isRunning = flagAfter w.isRunning marks := by
  induction steps with
  | nil =>
    intro w inRun marks w' r' h
    simp only [Windowed.exec, Option.some.injEq, Prod.mk.injEq] at h
    obtain ⟨rfl, rfl, -⟩ := h
    rfl
  | cons st rest ih =>
    intro w inRun marks w' r' h
    unfold Windowed.exec at h
    cases hs : Windowed.step env st w inRun with
    | none => rw [hs] at h; simp at h
    | some x =>
      obtain ⟨m, w1, r1⟩ := x
      simp only [hs] at h
      cases he : Windowed.exec env rest w1 r1 with
      | none => simp [he] at h
      | some y =>
        obtain ⟨ms, w2, r2⟩ := y
        simp only [he, Option.some.injEq, Prod.mk.injEq] at h
        obtain ⟨rfl, rfl, -⟩ := h
        rw [ih w1 r1 ms w2 r2 he, Windowed.step_flag_engine env st w inRun m w1 r1 hs]
        rfl

theorem RaisedAndNotStopped_nil : ¬ RaisedAndNotStopped [] := by
  rintro ⟨pre, post, h, -⟩
  cases pre <;> simp at h

theorem RaisedAndNotStopped_cons (m : Mark) (rest : List Mark) :
    RaisedAndNotStopped (m :: rest) ↔
      (m = .initSucceeded ∧ ∀ x ∈ rest, x.stops = false) ∨ RaisedAndNotStopped rest := by
  constructor
  · rintro ⟨pre, post, h, hpost⟩
    cases pre with
    | nil =>
      simp only [List.nil_append, List.cons.injEq] at h
      obtain ⟨rfl, rfl⟩ := h
      exact Or.inl ⟨rfl, hpost⟩
    | cons p pre =>
      simp only [List.cons_append, List.cons.injEq] at h
      obtain ⟨rfl, rfl⟩ := h
      exact Or.inr ⟨pre, post, rfl, hpost⟩
  · rintro (⟨rfl, hrest⟩ | ⟨pre, post, rfl, hpost⟩)
    · exact ⟨[], rest, rfl, hrest⟩
    · exact ⟨m :: pre, post, rfl, hpost⟩

theorem flagAfter_iff (marks : List Mark) :
    ∀ b : Bool, flagAfter b marks = true ↔
      RaisedAndNotStopped marks ∨ (b = true ∧ ∀ m ∈ marks, m.stops = false) := by
  induction marks with
  | nil =>
    intro b
    simp [flagAfter, RaisedAndNotStopped_nil]
  | cons m rest ih =>
    intro b
    have hstep : flagAfter b (m :: rest) = flagAfter (flagStep b m) rest := rfl
    rw [hstep, ih, RaisedAndNotStopped_cons]
    cases m <;> cases b <;> simp [flagStep, Mark.stops] <;> tauto

theorem Headless.whileLoop_exec_main (env : Env) :
    ∀ (fuel : Nat) (w v : World), Headless.whileLoop env fuel w = some v →
      ∃ k ms, Headless.exec env (List.replicate k .pass ++ [.leaveRun]) w true
        = some (ms, say .exitingLoop v, false) := by
  intro fuel
  induction fuel with
  | zero => intro w v h; simp [Headless.whileLoop] at h
  | succ f ih =>
    intro w v h
    by_cases hr : w.isRunning = true
    · simp only [Headless.whileLoop, IsRunning, hr, if_true] at h
      obtain ⟨k, ms, hk⟩ := ih _ _ h
      refine ⟨k + 1, (if Headless.exitRequested w then Mark.requestExit else Mark.quietPass) :: ms, ?_⟩
      rw [List.replicate_succ, List.cons_append]
      simp only [Headless.exec, Headless.step, IsRunning, hr, if_true, hk]
    · simp only [Headless.whileLoop, IsRunning, hr] at h
      have : w = v := by simpa using h
      subst this
      exact ⟨0, [.runLeft], by simp [Headless.exec, Headless.step, IsRunning, hr]⟩

theorem Headless.exec_whileLoop_main (env : Env) (k : Nat) :
    ∀ (w v : World) (ms : List Mark) (r : Bool),
      Headless.exec env (List.replicate k .pass ++ [.leaveRun]) w true = some (ms, v, r) →
      ∀ fuel, k < fuel → (Headless.whileLoop env fuel w).map (say .exitingLoop) = some v := by
  induction k with
  | zero =>
    intro w v ms r h fuel hf
    obtain ⟨f, rfl⟩ : ∃ f, fuel = f + 1 := ⟨fuel - 1, by omega⟩
    by_cases hr : w.isRunning = true
    · simp [Headless.exec, Headless.step, IsRunning, hr] at h
    · simp [Headless.exec, Headless.step, IsRunning, hr] at h
      obtain ⟨-, hv, -⟩ := h
      simp [Headless.whileLoop, IsRunning, hr, hv]
  | succ k ih =>
    intro w v ms r h fuel hf
    obtain ⟨f, rfl⟩ : ∃ f, fuel = f + 1 := ⟨fuel - 1, by omega⟩
    rw [List.replicate_succ, List.cons_append] at h
    by_cases hr : w.isRunning = true
    · simp only [Headless.exec, Headless.step, IsRunning, hr, if_true] at h
      cases he : Headless.exec env (List.replicate k .pass ++ [.leaveRun]) (Headless.loopBody env w) true with
      | none => simp [he] at h
      | some y =>
        obtain ⟨ms1, v1, r1⟩ := y
        simp only [he, Option.some.injEq, Prod.mk.injEq] at h
        obtain ⟨-, rfl, -⟩ := h
        simpa [Headless.whileLoop, IsRunning, hr] using ih _ _ _ _ he f (by omega)
    · simp [Headless.exec, Headless.step, IsRunning, hr] at h

theorem Headless.Run_iff_exec_main (env : Env) (w v : World) :
    (∃ fuel, Headless.Run env fuel w = some v) ↔
      ∃ k ms, Headless.exec env (.enterRun :: (List.replicate k .pass ++ [.leaveRun])) w false
        = some (ms, v, false) := by
  constructor
  · rintro ⟨fuel, h⟩
    unfold Headless.Run at h
    cases hl : Headless.whileLoop env fuel (say .startingLoop w) with
    | none => rw [hl] at h; simp at h
    | some u =>
      rw [hl] at h
      have hu : say .exitingLoop u = v := by simpa using h
      obtain ⟨k, ms, hk⟩ := Headless.whileLoop_exec_main env fuel _ _ hl
      refine ⟨k, .runEntered :: ms, ?_⟩
      simp only [Headless.exec, Headless.step, hk, hu]
  · rintro ⟨k, ms, h⟩
    change (match Headless.exec env (List.replicate k .pass ++ [.leaveRun])
        (say .startingLoop w) true with
      | none => none
      | some (ms, w2, r2) => some (Mark.runEntered :: ms, w2, r2)) = _ at h
    cases he : Headless.exec env (List.replicate k .pass ++ [.leaveRun]) (say .startingLoop w) true with
    | none => rw [he] at h; simp at h
    | some y =>
      obtain ⟨ms1, v1, r1⟩ := y
      rw [he] at h
      simp only [Option.some.injEq, Prod.mk.injEq] at h
      obtain ⟨-, rfl, -⟩ := h
      exact ⟨k + 1, Headless.exec_whileLoop_main env k _ _ _ _ he (k + 1) (by omega)⟩

theorem Windowed.whileLoop_exec_engine (env : Env) :
    ∀ (fuel : Nat) (w v : World), Windowed.whileLoop env fuel w = some v →
      ∃ k ms, Windowed.exec env (List.replicate k .pass ++ [.leaveRun]) w true
        = some (ms, say .exitingLoop v, false) := by
  intro fuel
  induction fuel with
  | zero => intro w v h; simp [Windowed.whileLoop] at h
  | succ f ih =>
    intro w v h
    by_cases hr : w.isRunning = true
    · simp only [Windowed.whileLoop, IsRunning, hr, if_true] at h
      obtain ⟨k, ms, hk⟩ := ih _ _ h
      refine ⟨k + 1, (if Windowed.closeRequested env w then Mark.closeEvent else Mark.quietPass) :: ms, ?_⟩
      rw [List.replicate_succ, List.cons_append]
      simp only [Windowed.exec, Windowed.step, IsRunning, hr, if_true, hk]
    · simp only [Windowed.whileLoop, IsRunning, hr] at h
      have : w = v := by simpa using h
      subst this
      exact ⟨0, [.runLeft], by simp [Windowed.exec, Windowed.step, IsRunning, hr]⟩

theorem Windowed.exec_whileLoop_engine (env : Env) (k : Nat) :
    ∀ (w v : World) (ms : List Mark) (r : Bool),
      Windowed.exec env (List.replicate k .pass ++ [.leaveRun]) w true = some (ms, v, r) →
      ∀ fuel, k < fuel → (Windowed.whileLoop env fuel w).map (say .exitingLoop) = some v := by
  induction k with
  | zero =>
    intro w v ms r h fuel hf
    obtain ⟨f, rfl⟩ : ∃ f, fuel = f + 1 := ⟨fuel - 1, by omega⟩
    by_cases hr : w.isRunning = true
    · simp [Windowed.exec, Windowed.step, IsRunning, hr] at h
    · simp [Windowed.exec, Windowed.step, IsRunning, hr] at h
      obtain ⟨-, hv, -⟩ := h
      simp [Windowed.whileLoop, IsRunning, hr, hv]
  | succ k ih =>
    intro w v ms r h fuel hf
    obtain ⟨f, rfl⟩ : ∃ f, fuel = f + 1 := ⟨fuel - 1, by omega⟩
    rw [List.replicate_succ, List.cons_append] at h
    by_cases hr : w.isRunning = true
    · simp only [Windowed.exec, Windowed.step, IsRunning, hr, if_true] at h
      cases he : Windowed.exec env (List.replicate k .pass ++ [.leaveRun]) (Windowed.loopBody env w) true with
      | none => simp [he] at h
      | some y =>
        obtain ⟨ms1, v1, r1⟩ := y
        simp only [he, Option.some.injEq, Prod.mk.injEq] at h
        obtain ⟨-, rfl, -⟩ := h
        simpa [Windowed.whileLoop, IsRunning, hr] using ih _ _ _ _ he f (by omega)
    · simp [Windowed.exec, Windowed.step, IsRunning, hr] at h

theorem Windowed.Run_iff_exec_engine (env : Env) (w v : World) :
    (∃ fuel, Windowed.Run env fuel w = some v) ↔
      ∃ k ms, Windowed.exec env (.enterRun :: (List.replicate k .pass ++ [.leaveRun])) w false
        = some (ms, v, false) := by
  constructor
  · rintro ⟨fuel, h⟩
    unfold Windowed.Run at h
    cases hl : Windowed.whileLoop env fuel (say .startingLoop w) with
    | none => rw [hl] at h; simp at h
    | some u =>
      rw [hl] at h
      have hu : say .exitingLoop u = v := by simpa using h
      obtain ⟨k, ms, hk⟩ := Windowed.whileLoop_exec_engine env fuel _ _ hl
      refine ⟨k, .runEntered :: ms, ?_⟩
      simp only [Windowed.exec, Windowed.step, hk, hu]
  · rintro ⟨k, ms, h⟩
    change (match Windowed.exec env (List.replicate k .pass ++ [.leaveRun])
        (say .startingLoop w) true with
      | none => none
      | some (ms, w2, r2) => some (Mark.runEntered :: ms, w2, r2)) = _ at h
    cases he : Windowed.exec env (List.replicate k .pass ++ [.leaveRun]) (say .startingLoop w) true with
    | none => rw [he] at h; simp at h
    | some y =>
      obtain ⟨ms1, v1, r1⟩ := y
      rw [he] at h
      simp only [Option.some.injEq, Prod.mk.injEq] at h
      obtain ⟨-, rfl, -⟩ := h
      exact ⟨k + 1, Windowed.exec_whileLoop_engine env k _ _ _ _ he (k + 1) (by omega)⟩

theorem not_started (marks : List Mark) (h : Mark.runEntered ∉ marks) :
    ¬ StartedAndNotStopped marks := by
  rintro ⟨pre, post, rfl, -⟩
  exact h (by simp)

/-- C5, as stated, fails: after a successful `Initialize` alone, `IsRunning()`
is already true in both files although the loop of `Run` has not been
started. -/
theorem C5_running_before_Run :
    Headless.exec tickEnv [.init stubSteps] fresh false
      = some ([.initSucceeded], Headless.ready, false) ∧
    IsRunning Headless.ready = true ∧
    Windowed.exec tickEnv [.init stubSteps] fresh false
      = some ([.initSucceeded], Windowed.ready, false) ∧
    IsRunning Windowed.ready = true ∧
    ¬ StartedAndNotStopped [.initSucceeded] :=
  ⟨rfl, rfl, rfl, rfl, not_started _ (by decide)⟩

/-- C5, amended. Apply to the freshly built application any sequence of steps
(calls of `Initialize`, `RequestExit`, `Shutdown`, and `Run` followed pass by
pass: its entry, each pass through its loop body, its return) that can be
taken, in `main.cpp` or in `engine.cpp`. In the state reached, inside the loop
or outside, `IsRunning()` is true exactly when an `Initialize` has succeeded
and neither `RequestExit` (called directly or by `ProcessInput` on the exit
key), nor a close event observed by `PollEvents`, nor `Shutdown` has occurred
since. The returning calls of `Run` are exactly the step sequences entry,
passes, return; and a pass counts as an exit request (as a close event)
exactly when the trace of that pass records `IsKeyPressed` (`WindowShouldClose`)
answering true. -/
theorem C5_IsRunning_along_executions (env : Env) (steps : List Move) (marks : List Mark)
    (w' : World) (inRun : Bool) :
    (Headless.exec env steps fresh false = some (marks, w', inRun) →
      (IsRunning w' = true ↔ RaisedAndNotStopped marks)) ∧
    (Windowed.exec env steps fresh false = some (marks, w', inRun) →
      (IsRunning w' = true ↔ RaisedAndNotStopped marks)) ∧
    (∀ w v, (∃ fuel, Headless.Run env fuel w = some v) ↔
      ∃ k ms, Headless.exec env (.enterRun :: (List.replicate k .pass ++ [.leaveRun])) w false
        = some (ms, v, false)) ∧
    (∀ w v, (∃ fuel, Windowed.Run env fuel w = some v) ↔
      ∃ k ms, Windowed.exec env (.enterRun :: (List.replicate k .pass ++ [.leaveRun])) w false
        = some (ms, v, false)) ∧
    (∀ w, stopAnswers (Headless.loopBody env w).trace
      = stopAnswers w.trace ++ [Headless.exitRequested w]) ∧
    (∀ w, stopAnswers (Windowed.loopBody env w).trace
      = stopAnswers w.trace ++ [Windowed.closeRequested env w]) := by
  refine ⟨?_, ?_, Headless.Run_iff_exec_main env, Windowed.Run_iff_exec_engine env,
    Headless.loopBody_stopAnswers_main env, Windowed.loopBody_stopAnswers_engine env⟩
  · intro h
    rw [show IsRunning w' = w'.isRunning from rfl,
      Headless.exec_flag_main env steps fresh false marks w' inRun h, flagAfter_iff]
    simp [fresh]
  · intro h
    rw [show IsRunning w' = w'.isRunning from rfl,
      Windowed.exec_flag_engine env steps fresh false marks w' inRun h, flagAfter_iff]
    simp [fresh]

/-- C5 amended, on `engine.cpp` with a window that reports its close button at
the third query: inside the loop after two passes the flag is up, and after
the third pass, which observes the close event, it is down. -/
theorem C5_IsRunning_along_executions_witness :
    (∃ w', Windowed.exec closingEnv [.init stubSteps, .enterRun, .pass, .pass] fresh false
        = some ([.initSucceeded, .runEntered, .quietPass, .quietPass], w', true) ∧
      (IsRunning w' = true ↔
        RaisedAndNotStopped [.initSucceeded, .runEntered, .quietPass, .quietPass]) ∧
      IsRunning w' = true) ∧
    (∃ w', Windowed.exec closingEnv [.init stubSteps, .enterRun, .pass, .pass, .pass] fresh false
        = some ([.initSucceeded, .runEntered, .quietPass, .quietPass, .closeEvent], w', true) ∧
      (IsRunning w' = true ↔
        RaisedAndNotStopped [.initSucceeded, .runEntered, .quietPass, .quietPass, .closeEvent]) ∧
      IsRunning w' = false) :=
  ⟨⟨_, rfl, (C5_IsRunning_along_executions closingEnv
      [.init stubSteps, .enterRun, .pass, .pass] _ _ _).2.1 rfl, rfl⟩,
    ⟨_, rfl, (C5_IsRunning_along_executions closingEnv
      [.init stubSteps, .enterRun, .pass, .pass, .pass] _ _ _).2.1 rfl, rfl⟩⟩

end Blink
